import Mathlib

/-
  Verification of the j2gbc emulator core against its specification.

  The decoder is embedded from src/j2gbc/src/inst.rs; the CPU executor,
  interrupt dispatch, stack discipline, trace ring and duration-bounded
  runner are embedded from src/src/emu/cpu/mod.rs.  Modules of the
  repository that are not present under src/ (alu.rs, cpu/register.rs,
  cpu/interrupt.rs, mem.rs, mmu.rs, and the inst submodules) are modelled
  from the specification; each such definition carries a doc comment
  saying so.
-/

set_option maxRecDepth 8192

namespace J2gbc

/-- Modelled from the spec: alu.rs is missing; `hi_lo(hi, lo)` composes two
bytes high-byte first into a 16-bit value (spec section 3, Register16). -/
def hi_lo (h l : Nat) : Nat := (h % 256) * 256 + (l % 256)

/-- Modelled from the spec: high byte of a 16-bit value. -/
def hi (v : Nat) : Nat := (v / 256) % 256

/-- Modelled from the spec: low byte of a 16-bit value. -/
def lo (v : Nat) : Nat := v % 256

/-- Reinterpret a byte as a signed 8-bit integer (Rust `as i8`). -/
def toI8 (b : Nat) : Int := if b % 256 < 128 then (b % 256 : Int) else (b % 256 : Int) - 256

/-- Sign-extend an i8 value to an unsigned 16-bit value (Rust `as u16` on i8). -/
def i8ToU16 (x : Int) : Nat := (x % 65536).toNat

/-- Modelled from the spec: cpu/register.rs is missing; Register8 is the
enumeration of the eight 8-bit registers (spec section 3). -/
inductive Register8
  | A | F | B | C | D | E | H | L
deriving DecidableEq

/-- Modelled from the spec: cpu/register.rs is missing; Register16 is the
pair-view tag (spec section 3). -/
inductive Register16
  | AF | BC | DE | HL | SP | PC
deriving DecidableEq

/-- Modelled from the spec: cpu/register.rs is missing; Operand is the
tagged union of addressing modes (spec section 3). -/
inductive Operand
  | Immediate (v : Nat)
  | Register (r : Register8)
  | IndirectRegister (r : Register16)
  | IndirectAddress (a : Nat)
deriving DecidableEq

/-- Modelled from the spec: ConditionCode tags NZ, Z, NC, C (spec section 3). -/
inductive ConditionCode
  | NZ | Z | NC | C
deriving DecidableEq

/-- Modelled from the spec: the 3-bit register-field mapping
0 B, 1 C, 2 D, 3 E, 4 H, 5 L, 6 (HL), 7 A (spec section 3, Operand). -/
def Operand.from_bits (v : Nat) (off : Nat) : Operand :=
  match (v >>> off) &&& 7 with
  | 0 => .Register .B
  | 1 => .Register .C
  | 2 => .Register .D
  | 3 => .Register .E
  | 4 => .Register .H
  | 5 => .Register .L
  | 6 => .IndirectRegister .HL
  | _ => .Register .A

/-- Modelled from the spec: ConditionCode is extracted from opcode bits 3-4
(spec section 3); 0 NZ, 1 Z, 2 NC, 3 C matches the opcode assignments of
the decoder (0xC2 NZ, 0xCA Z, 0xD2 NC, 0xDA C, and so on). -/
def ConditionCode.from_bits (v : Nat) : ConditionCode :=
  match (v >>> 3) &&& 3 with
  | 0 => .NZ
  | 1 => .Z
  | 2 => .NC
  | _ => .C

/-- Arith family of instructions; the variants and payloads are exactly
those constructed by Instruction::decode in src/j2gbc/src/inst.rs. -/
inductive Arith
  | Increment (o : Operand)
  | Decrement (o : Operand)
  | DecrementRegister16 (r : Register16)
  | IncrementRegister16 (r : Register16)
  | AddSP (n : Int)
  | AddRegisterRegister16 (d s : Register16)
  | DecimalAdjustAccumulator
  | Add (o : Operand)
  | AddWithCarry (o : Operand)
  | Subtract (o : Operand)
  | SubtractWithCarry (o : Operand)
deriving DecidableEq

/-- Bits family of instructions, as constructed by Instruction::decode. -/
inductive Bits
  | Complement
  | RotateLeftAccumulator
  | RotateRightAccumulator
  | RotateLeftCarryAccumulator
  | RotateRightCarryAccumulator
  | RotateLeftCarry (o : Operand)
  | RotateRightCarry (o : Operand)
  | RotateLeft (o : Operand)
  | RotateRight (o : Operand)
  | ShiftLeftArithmetic (o : Operand)
  | ShiftRightArithmetic (o : Operand)
  | Swap (o : Operand)
  | ShiftRightLogical (o : Operand)
  | GetBit (b : Nat) (o : Operand)
  | ResetBit (b : Nat) (o : Operand)
  | SetBit (b : Nat) (o : Operand)
deriving DecidableEq

/-- Control family of instructions, as constructed by Instruction::decode. -/
inductive Control
  | JumpIndirect
  | Jump (a : Nat)
  | JumpConditional (a : Nat) (cc : ConditionCode)
  | Reset (a : Nat)
  | Call (a : Nat)
  | CallConditional (a : Nat) (cc : ConditionCode)
  | JumpRelative (o : Int)
  | JumpRelativeConditional (o : Int) (cc : ConditionCode)
  | Return
  | InterruptReturn
  | ReturnConditional (cc : ConditionCode)
deriving DecidableEq

/-- Load family of instructions, as constructed by Instruction::decode. -/
inductive Load
  | Load (dst src : Operand)
  | LoadMemoryFromSP (a : Nat)
  | LoadRegisterImmediate16 (r : Register16) (v : Nat)
  | LoadMemoryFromA (a : Nat)
  | LoadAFromMemory (a : Nat)
  | LoadIndirectHiFromA
  | LoadAFromIndirectHi
  | LoadHLFromSP (n : Int)
  | LoadSPFromHL
  | LoadIndirectRegisterFromA (r : Register16)
  | LoadAFromIndirectRegister (r : Register16)
  | LoadIndirectFromA (d : Int)
  | LoadAFromIndirect (d : Int)
  | Push (r : Register16)
  | Pop (r : Register16)
deriving DecidableEq

/-- Logic family of instructions, as constructed by Instruction::decode. -/
inductive Logic
  | AndImmediate (v : Nat)
  | AndIndirect
  | AndRegister (r : Register8)
  | OrImmediate (v : Nat)
  | OrIndirect
  | OrRegister (r : Register8)
  | XorImmediate (v : Nat)
  | XorIndirect
  | XorRegister (r : Register8)
deriving DecidableEq

/-- Instruction, the tagged union covering the legal ISA
(src/j2gbc/src/inst.rs). -/
inductive Instruction
  | Nop
  | EnableInterrupts
  | DisableInterrupts
  | Halt
  | SetCarry
  | ClearCarry
  | Stop
  | Compare (o : Operand)
  | Arith (a : Arith)
  | Bits (b : Bits)
  | Control (c : Control)
  | Load (l : Load)
  | Logic (l : Logic)
deriving DecidableEq

/-- Helper of the CB sub-table decode: bit index from opcode bits 5:3
(fn get_bits_bit in src/j2gbc/src/inst.rs). -/
def get_bits_bit (i : Nat) : Nat := (i >>> 3) &&& 7

/-- Instruction::decode from src/j2gbc/src/inst.rs, translated arm by arm.
Rust's `Result<(Instruction, u8), ()>` becomes `Option (Instruction × Nat)`.
The Rust match arms are pairwise disjoint, so the if-chain below in source
order has the same semantics; range patterns become interval conditions. -/
def Instruction.decode (b0 b1 b2 : Nat) : Option (Instruction × Nat) :=
  if b0 = 0x00 then some (.Nop, 1)
  else if b0 = 0xFB then some (.EnableInterrupts, 1)
  else if b0 = 0xF3 then some (.DisableInterrupts, 1)
  else if b0 = 0x10 then
    (if b1 = 0x00 then some (.Stop, 2) else none)
  else if b0 = 0x76 then some (.Halt, 1)
  else if b0 = 0x37 then some (.SetCarry, 1)
  else if b0 = 0x3F then some (.ClearCarry, 1)
  else if b0 = 0x04 ∨ b0 = 0x14 ∨ b0 = 0x24 ∨ b0 = 0x34 ∨ b0 = 0x0C ∨ b0 = 0x1C ∨ b0 = 0x2C ∨ b0 = 0x3C then
    some (.Arith (.Increment (Operand.from_bits b0 3)), 1)
  else if b0 = 0x05 ∨ b0 = 0x15 ∨ b0 = 0x25 ∨ b0 = 0x35 ∨ b0 = 0x0D ∨ b0 = 0x1D ∨ b0 = 0x2D ∨ b0 = 0x3D then
    some (.Arith (.Decrement (Operand.from_bits b0 3)), 1)
  else if b0 = 0x08 then some (.Load (.LoadMemoryFromSP (hi_lo b2 b1)), 3)
  else if b0 = 0x0B then some (.Arith (.DecrementRegister16 .BC), 1)
  else if b0 = 0x1B then some (.Arith (.DecrementRegister16 .DE), 1)
  else if b0 = 0x2B then some (.Arith (.DecrementRegister16 .HL), 1)
  else if b0 = 0x3B then some (.Arith (.DecrementRegister16 .SP), 1)
  else if b0 = 0x03 then some (.Arith (.IncrementRegister16 .BC), 1)
  else if b0 = 0x13 then some (.Arith (.IncrementRegister16 .DE), 1)
  else if b0 = 0x23 then some (.Arith (.IncrementRegister16 .HL), 1)
  else if b0 = 0x33 then some (.Arith (.IncrementRegister16 .SP), 1)
  else if b0 = 0xE8 then some (.Arith (.AddSP (toI8 b1)), 2)
  else if b0 = 0x09 then some (.Arith (.AddRegisterRegister16 .HL .BC), 1)
  else if b0 = 0x19 then some (.Arith (.AddRegisterRegister16 .HL .DE), 1)
  else if b0 = 0x29 then some (.Arith (.AddRegisterRegister16 .HL .HL), 1)
  else if b0 = 0x39 then some (.Arith (.AddRegisterRegister16 .HL .SP), 1)
  else if b0 = 0xE9 then some (.Control .JumpIndirect, 1)
  else if b0 = 0xC3 then some (.Control (.Jump (hi_lo b2 b1)), 3)
  else if b0 = 0xC2 ∨ b0 = 0xD2 ∨ b0 = 0xCA ∨ b0 = 0xDA then
    some (.Control (.JumpConditional (hi_lo b2 b1) (ConditionCode.from_bits b0)), 3)
  else if b0 = 0xC7 then some (.Control (.Reset 0x0000), 1)
  else if b0 = 0xD7 then some (.Control (.Reset 0x0010), 1)
  else if b0 = 0xE7 then some (.Control (.Reset 0x0020), 1)
  else if b0 = 0xF7 then some (.Control (.Reset 0x0030), 1)
  else if b0 = 0xCF then some (.Control (.Reset 0x0008), 1)
  else if b0 = 0xDF then some (.Control (.Reset 0x0018), 1)
  else if b0 = 0xEF then some (.Control (.Reset 0x0028), 1)
  else if b0 = 0xFF then some (.Control (.Reset 0x0038), 1)
  else if b0 = 0xCD then some (.Control (.Call (hi_lo b2 b1)), 3)
  else if b0 = 0xC4 ∨ b0 = 0xD4 ∨ b0 = 0xCC ∨ b0 = 0xDC then
    some (.Control (.CallConditional (hi_lo b2 b1) (ConditionCode.from_bits b0)), 3)
  else if b0 = 0xF0 then
    some (.Load (.Load (.Register .A) (.IndirectAddress (0xFF00 + b1 % 256))), 2)
  else if b0 = 0xE0 then
    some (.Load (.Load (.IndirectAddress (0xFF00 + b1 % 256)) (.Register .A)), 2)
  else if b0 = 0x01 then some (.Load (.LoadRegisterImmediate16 .BC (hi_lo b2 b1)), 3)
  else if b0 = 0x11 then some (.Load (.LoadRegisterImmediate16 .DE (hi_lo b2 b1)), 3)
  else if b0 = 0x21 then some (.Load (.LoadRegisterImmediate16 .HL (hi_lo b2 b1)), 3)
  else if b0 = 0x31 then some (.Load (.LoadRegisterImmediate16 .SP (hi_lo b2 b1)), 3)
  else if b0 = 0x2F then some (.Bits .Complement, 1)
  else if b0 = 0x27 then some (.Arith .DecimalAdjustAccumulator, 1)
  else if b0 = 0xEA then some (.Load (.LoadMemoryFromA (hi_lo b2 b1)), 3)
  else if b0 = 0xFA then some (.Load (.LoadAFromMemory (hi_lo b2 b1)), 3)
  else if b0 = 0xE2 then some (.Load .LoadIndirectHiFromA, 1)
  else if b0 = 0xF2 then some (.Load .LoadAFromIndirectHi, 1)
  else if b0 = 0xF8 then some (.Load (.LoadHLFromSP (toI8 b1)), 2)
  else if b0 = 0xF9 then some (.Load .LoadSPFromHL, 1)
  else if b0 = 0x02 then some (.Load (.LoadIndirectRegisterFromA .BC), 1)
  else if b0 = 0x12 then some (.Load (.LoadIndirectRegisterFromA .DE), 1)
  else if b0 = 0x0A then some (.Load (.LoadAFromIndirectRegister .BC), 1)
  else if b0 = 0x1A then some (.Load (.LoadAFromIndirectRegister .DE), 1)
  else if b0 = 0x06 ∨ b0 = 0x16 ∨ b0 = 0x26 ∨ b0 = 0x36 ∨ b0 = 0x0E ∨ b0 = 0x1E ∨ b0 = 0x2E ∨ b0 = 0x3E then
    some (.Load (.Load (Operand.from_bits b0 3) (.Immediate b1)), 2)
  else if (0x40 ≤ b0 ∧ b0 ≤ 0x75) ∨ (0x77 ≤ b0 ∧ b0 ≤ 0x7F) then
    some (.Load (.Load (Operand.from_bits b0 3) (Operand.from_bits b0 0)), 1)
  else if b0 = 0x22 then some (.Load (.LoadIndirectFromA 1), 1)
  else if b0 = 0x32 then some (.Load (.LoadIndirectFromA (-1)), 1)
  else if b0 = 0x2A then some (.Load (.LoadAFromIndirect 1), 1)
  else if b0 = 0x3A then some (.Load (.LoadAFromIndirect (-1)), 1)
  else if b0 = 0xC5 then some (.Load (.Push .BC), 1)
  else if b0 = 0xD5 then some (.Load (.Push .DE), 1)
  else if b0 = 0xE5 then some (.Load (.Push .HL), 1)
  else if b0 = 0xF5 then some (.Load (.Push .AF), 1)
  else if b0 = 0xC1 then some (.Load (.Pop .BC), 1)
  else if b0 = 0xD1 then some (.Load (.Pop .DE), 1)
  else if b0 = 0xE1 then some (.Load (.Pop .HL), 1)
  else if b0 = 0xF1 then some (.Load (.Pop .AF), 1)
  else if b0 = 0xFE then some (.Compare (.Immediate b1), 2)
  else if 0xB8 ≤ b0 ∧ b0 ≤ 0xBF then some (.Compare (Operand.from_bits b0 0), 1)
  else if b0 = 0x20 ∨ b0 = 0x30 ∨ b0 = 0x28 ∨ b0 = 0x38 then
    some (.Control (.JumpRelativeConditional (toI8 b1) (ConditionCode.from_bits b0)), 2)
  else if b0 = 0x18 then some (.Control (.JumpRelative (toI8 b1)), 2)
  else if 0x80 ≤ b0 ∧ b0 ≤ 0x87 then some (.Arith (.Add (Operand.from_bits b0 0)), 1)
  else if b0 = 0xC6 then some (.Arith (.Add (.Immediate b1)), 2)
  else if 0x88 ≤ b0 ∧ b0 ≤ 0x8F then some (.Arith (.AddWithCarry (Operand.from_bits b0 0)), 1)
  else if b0 = 0xCE then some (.Arith (.AddWithCarry (.Immediate b1)), 2)
  else if 0x90 ≤ b0 ∧ b0 ≤ 0x97 then some (.Arith (.Subtract (Operand.from_bits b0 0)), 1)
  else if b0 = 0xD6 then some (.Arith (.Subtract (.Immediate b1)), 2)
  else if 0x98 ≤ b0 ∧ b0 ≤ 0x9F then some (.Arith (.SubtractWithCarry (Operand.from_bits b0 0)), 1)
  else if b0 = 0xDE then some (.Arith (.SubtractWithCarry (.Immediate b1)), 2)
  else if b0 = 0xE6 then some (.Logic (.AndImmediate b1), 2)
  else if b0 = 0xA6 then some (.Logic .AndIndirect, 1)
  else if b0 = 0xA0 then some (.Logic (.AndRegister .B), 1)
  else if b0 = 0xA1 then some (.Logic (.AndRegister .C), 1)
  else if b0 = 0xA2 then some (.Logic (.AndRegister .D), 1)
  else if b0 = 0xA3 then some (.Logic (.AndRegister .E), 1)
  else if b0 = 0xA4 then some (.Logic (.AndRegister .H), 1)
  else if b0 = 0xA5 then some (.Logic (.AndRegister .L), 1)
  else if b0 = 0xA7 then some (.Logic (.AndRegister .A), 1)
  else if b0 = 0xF6 then some (.Logic (.OrImmediate b1), 2)
  else if b0 = 0xB6 then some (.Logic .OrIndirect, 1)
  else if b0 = 0xB0 then some (.Logic (.OrRegister .B), 1)
  else if b0 = 0xB1 then some (.Logic (.OrRegister .C), 1)
  else if b0 = 0xB2 then some (.Logic (.OrRegister .D), 1)
  else if b0 = 0xB3 then some (.Logic (.OrRegister .E), 1)
  else if b0 = 0xB4 then some (.Logic (.OrRegister .H), 1)
  else if b0 = 0xB5 then some (.Logic (.OrRegister .L), 1)
  else if b0 = 0xB7 then some (.Logic (.OrRegister .A), 1)
  else if b0 = 0xEE then some (.Logic (.XorImmediate b1), 2)
  else if b0 = 0xAE then some (.Logic .XorIndirect, 1)
  else if b0 = 0xA8 then some (.Logic (.XorRegister .B), 1)
  else if b0 = 0xA9 then some (.Logic (.XorRegister .C), 1)
  else if b0 = 0xAA then some (.Logic (.XorRegister .D), 1)
  else if b0 = 0xAB then some (.Logic (.XorRegister .E), 1)
  else if b0 = 0xAC then some (.Logic (.XorRegister .H), 1)
  else if b0 = 0xAD then some (.Logic (.XorRegister .L), 1)
  else if b0 = 0xAF then some (.Logic (.XorRegister .A), 1)
  else if b0 = 0xC9 then some (.Control .Return, 1)
  else if b0 = 0xD9 then some (.Control .InterruptReturn, 1)
  else if b0 = 0xC0 ∨ b0 = 0xD0 ∨ b0 = 0xC8 ∨ b0 = 0xD8 then
    some (.Control (.ReturnConditional (ConditionCode.from_bits b0)), 1)
  else if b0 = 0x17 then some (.Bits .RotateLeftAccumulator, 1)
  else if b0 = 0x1F then some (.Bits .RotateRightAccumulator, 1)
  else if b0 = 0x07 then some (.Bits .RotateLeftCarryAccumulator, 1)
  else if b0 = 0x0F then some (.Bits .RotateRightCarryAccumulator, 1)
  else if b0 = 0xCB then
    (if b1 ≤ 0x07 then some (.Bits (.RotateLeftCarry (Operand.from_bits b1 0)), 2)
     else if b1 ≤ 0x0F then some (.Bits (.RotateRightCarry (Operand.from_bits b1 0)), 2)
     else if b1 ≤ 0x17 then some (.Bits (.RotateLeft (Operand.from_bits b1 0)), 2)
     else if b1 ≤ 0x1F then some (.Bits (.RotateRight (Operand.from_bits b1 0)), 2)
     else if b1 ≤ 0x27 then some (.Bits (.ShiftLeftArithmetic (Operand.from_bits b1 0)), 2)
     else if b1 ≤ 0x2F then some (.Bits (.ShiftRightArithmetic (Operand.from_bits b1 0)), 2)
     else if b1 ≤ 0x37 then some (.Bits (.Swap (Operand.from_bits b1 0)), 2)
     else if b1 ≤ 0x3F then some (.Bits (.ShiftRightLogical (Operand.from_bits b1 0)), 2)
     else if b1 ≤ 0x7F then some (.Bits (.GetBit (get_bits_bit b1) (Operand.from_bits b1 0)), 2)
     else if b1 ≤ 0xBF then some (.Bits (.ResetBit (get_bits_bit b1) (Operand.from_bits b1 0)), 2)
     else some (.Bits (.SetBit (get_bits_bit b1) (Operand.from_bits b1 0)), 2))
  else none

/-- The reserved opcodes that produce a decode error (spec sections 4.2 and 8;
the final arm of Instruction::decode). -/
def reservedOpcodes : List Nat :=
  [0xD3, 0xDB, 0xDD, 0xE3, 0xE4, 0xEB, 0xEC, 0xED, 0xF4, 0xFC, 0xFD]

/-- Modelled from the spec: the reference instruction-length table of
section 4.2, used by testable property 1 (section 8).  Length 3 for the
16-bit-immediate forms, length 2 for the 8-bit-immediate and relative
forms and Stop, length 1 otherwise (0xCB is handled by its own property). -/
def refLen (b : Nat) : Nat :=
  if b = 0x10 then 2
  else if [0x01, 0x11, 0x21, 0x31, 0x08, 0xC3, 0xC2, 0xCA, 0xD2, 0xDA,
           0xCD, 0xC4, 0xCC, 0xD4, 0xDC, 0xEA, 0xFA].contains b then 3
  else if [0x06, 0x16, 0x26, 0x36, 0x0E, 0x1E, 0x2E, 0x3E,
           0xC6, 0xCE, 0xD6, 0xDE, 0xE6, 0xEE, 0xF6, 0xFE,
           0xE0, 0xF0, 0xF8, 0xE8, 0x18, 0x20, 0x28, 0x30, 0x38].contains b then 2
  else 1

/-- Modelled from the spec: alu.rs is missing; the flags word packs Z at
bit 7, N at bit 6, H at bit 5, C at bit 4, low nibble zero (spec section 3). -/
def flagsOf (z n h c : Bool) : Nat :=
  (cond z 128 0) + (cond n 64 0) + (cond h 32 0) + (cond c 16 0)

/-- Modelled from the spec: read the Z bit of a flags byte. -/
def getZero (f : Nat) : Bool := f.testBit 7

/-- Modelled from the spec: read the N bit of a flags byte. -/
def getSubtract (f : Nat) : Bool := f.testBit 6

/-- Modelled from the spec: read the H bit of a flags byte. -/
def getHalfcarry (f : Nat) : Bool := f.testBit 5

/-- Modelled from the spec: read the C bit of a flags byte. -/
def getCarry (f : Nat) : Bool := f.testBit 4

/-- Modelled from the spec: set or clear one bit of a flags byte, leaving
the other bits of the byte alone. -/
def setFlagBit (f : Nat) (i : Nat) (b : Bool) : Nat :=
  if b then f ||| (1 <<< i) else f &&& (255 ^^^ (1 <<< i))

/-- Modelled from the spec: Flags::set_zero. -/
def set_zero (f : Nat) (b : Bool) : Nat := setFlagBit f 7 b

/-- Modelled from the spec: Flags::set_subtract. -/
def set_subtract (f : Nat) (b : Bool) : Nat := setFlagBit f 6 b

/-- Modelled from the spec: Flags::set_halfcarry. -/
def set_halfcarry (f : Nat) (b : Bool) : Nat := setFlagBit f 5 b

/-- Modelled from the spec: Flags::set_carry. -/
def set_carry (f : Nat) (b : Bool) : Nat := setFlagBit f 4 b

namespace alu

/-- Modelled from the spec, section 4.1: 8-bit add. -/
def add (a b : Nat) : Nat × Nat :=
  ((a + b) % 256,
   flagsOf ((a + b) % 256 = 0) false (a % 16 + b % 16 > 15) (a + b > 255))

/-- Modelled from the spec, section 4.1: add with carry-in. -/
def adc (a b : Nat) (c : Bool) : Nat × Nat :=
  ((a + b + cond c 1 0) % 256,
   flagsOf ((a + b + cond c 1 0) % 256 = 0) false
     (a % 16 + b % 16 + cond c 1 0 > 15) (a + b + cond c 1 0 > 255))

/-- Modelled from the spec, section 4.1: 8-bit subtract. -/
def sub (a b : Nat) : Nat × Nat :=
  ((a + 256 - b % 256) % 256,
   flagsOf ((a + 256 - b % 256) % 256 = 0) true (a % 16 < b % 16) (a < b))

/-- Modelled from the spec, section 4.1: subtract with carry-in. -/
def sbc (a b : Nat) (c : Bool) : Nat × Nat :=
  ((a + 512 - (b % 256 + cond c 1 0)) % 256,
   flagsOf ((a + 512 - (b % 256 + cond c 1 0)) % 256 = 0) true
     (a % 16 < b % 16 + cond c 1 0) (a < b + cond c 1 0))

/-- Modelled from the spec, section 4.1: increment, carry preserved. -/
def inc (v f : Nat) : Nat × Nat :=
  ((v + 1) % 256, flagsOf ((v + 1) % 256 = 0) false (v % 16 = 15) (getCarry f))

/-- Modelled from the spec, section 4.1: decrement, carry preserved. -/
def dec (v f : Nat) : Nat × Nat :=
  ((v + 255) % 256, flagsOf ((v + 255) % 256 = 0) true (v % 16 = 0) (getCarry f))

/-- Modelled from the spec, section 4.1: 16-bit add, zero preserved. -/
def add16 (a b f : Nat) : Nat × Nat :=
  ((a + b) % 65536,
   flagsOf (getZero f) false (a % 4096 + b % 4096 > 4095) (a + b > 65535))

/-- Modelled from the spec, section 4.1: bitwise and, H set. -/
def and (a b : Nat) : Nat × Nat :=
  (a &&& b, flagsOf ((a &&& b) = 0) false true false)

/-- Modelled from the spec, section 4.1: bitwise or. -/
def or (a b : Nat) : Nat × Nat :=
  (a ||| b, flagsOf ((a ||| b) = 0) false false false)

/-- Modelled from the spec, section 4.1: bitwise xor. -/
def xor (a b : Nat) : Nat × Nat :=
  (a ^^^ b, flagsOf ((a ^^^ b) = 0) false false false)

/-- Modelled from the spec, section 4.1: nibble swap. -/
def swap (v : Nat) : Nat × Nat :=
  ((v % 16) * 16 + (v / 16) % 16,
   flagsOf ((v % 16) * 16 + (v / 16) % 16 = 0) false false false)

/-- Modelled from the spec, section 4.1: shift left arithmetic. -/
def sla (v : Nat) : Nat × Nat :=
  ((v * 2) % 256, flagsOf ((v * 2) % 256 = 0) false false (v.testBit 7))

/-- Modelled from the spec, section 4.1: shift right logical. -/
def srl (v : Nat) : Nat × Nat :=
  (v / 2 % 128, flagsOf (v / 2 % 128 = 0) false false (v % 2 = 1))

/-- Modelled from the spec, section 4.1: shift right arithmetic, bit 7 kept. -/
def sra (v : Nat) : Nat × Nat :=
  (v / 2 % 128 + (if v.testBit 7 then 128 else 0),
   flagsOf (v / 2 % 128 + (if v.testBit 7 then 128 else 0) = 0) false false (v % 2 = 1))

/-- Modelled from the spec, section 4.1: rotate left through carry. -/
def rl (v f : Nat) : Nat × Nat :=
  ((v * 2) % 256 + cond (getCarry f) 1 0,
   flagsOf ((v * 2) % 256 + cond (getCarry f) 1 0 = 0) false false (v.testBit 7))

/-- Modelled from the spec, section 4.1: rotate right through carry. -/
def rr (v f : Nat) : Nat × Nat :=
  (v / 2 % 128 + cond (getCarry f) 128 0,
   flagsOf (v / 2 % 128 + cond (getCarry f) 128 0 = 0) false false (v % 2 = 1))

/-- Modelled from the spec, section 4.1: rotate left, ejected bit to carry
and to the vacated bit. -/
def rlc (v : Nat) : Nat × Nat :=
  ((v * 2) % 256 + cond (v.testBit 7) 1 0,
   flagsOf ((v * 2) % 256 + cond (v.testBit 7) 1 0 = 0) false false (v.testBit 7))

/-- Modelled from the spec, section 4.1: rotate right, ejected bit to carry
and to the vacated bit. -/
def rrc (v : Nat) : Nat × Nat :=
  (v / 2 % 128 + cond (v % 2 = 1) 128 0,
   flagsOf (v / 2 % 128 + cond (v % 2 = 1) 128 0 = 0) false false (v % 2 = 1))

/-- Modelled from the spec, section 4.1: decimal adjust after add or
subtract, choosing the 0x06/0x60 corrections from N, H, C. -/
def daa (a f : Nat) : Nat × Nat :=
  let n := getSubtract f
  let adjusted :=
    if n then
      let a1 := if getCarry f then (a + 256 - 0x60) % 256 else a % 256
      if getHalfcarry f then (a1 + 256 - 0x06) % 256 else a1
    else
      let a1 := if getCarry f ∨ a > 0x99 then (a + 0x60) % 256 else a % 256
      if getHalfcarry f ∨ a % 16 > 9 then (a1 + 0x06) % 256 else a1
  let c := if n then getCarry f else (getCarry f ∨ a > 0x99)
  (adjusted, flagsOf (adjusted = 0) n false c)

end alu

/-- Modelled from the spec: cpu/interrupt.rs is missing; the five
interrupt sources in priority order (spec sections 4.3 and 6). -/
inductive Interrupt
  | VBlank | LCDStat | Timer | Serial | Joypad
deriving DecidableEq

/-- Modelled from the spec: enable-register bit positions VBlank 0,
LCDStat 1, Timer 2, Serial 3, Joypad 4 (spec section 6). -/
def Interrupt.bitIndex : Interrupt → Nat
  | .VBlank => 0
  | .LCDStat => 1
  | .Timer => 2
  | .Serial => 3
  | .Joypad => 4

/-- Modelled from the spec: an interrupt is enabled when its bit of the
interrupt-enable register is set (spec sections 4.3 and 6). -/
def Interrupt.is_enabled (i : Interrupt) (ie : Nat) : Bool := ie.testBit i.bitIndex

/-- Modelled from the spec: the fixed dispatch vectors, VBlank 0x0040,
LCDStat 0x0048, Timer 0x0050, Serial 0x0058, Joypad 0x0060 (section 4.3). -/
def Interrupt.table_address : Interrupt → Nat
  | .VBlank => 0x0040
  | .LCDStat => 0x0048
  | .Timer => 0x0050
  | .Serial => 0x0058
  | .Joypad => 0x0060

/-- Modelled from the spec: mmu.rs, mem.rs, lcd.rs and cart.rs are missing;
the memory bus is an opaque byte-addressable device with an
interrupt-enable register, a peripheral pump and an event-cycle lookahead
(spec section 6).  `data` holds the byte at each address, `readable` and
`writable` say which accesses the bus accepts, `lcdPump` abstracts
`lcd.pump_cycle` and `lcdNextEventCycle` abstracts
`lcd.get_next_event_cycle`; `mapRom` abstracts
`cart.map_address_into_rom`. -/
structure Mmu where
  data : Nat → Nat
  readable : Nat → Bool
  writable : Nat → Bool
  interrupt_enable : Nat
  lcdNextEventCycle : Nat
  lcdPump : Nat → Option Interrupt
  mapRom : Nat → Nat

/-- Modelled from the spec: a bus read succeeds on readable addresses and
returns the stored byte (spec section 6). -/
def Mmu.read (m : Mmu) (a : Nat) : Option Nat :=
  if m.readable a then some (m.data a % 256) else none

/-- Modelled from the spec: a bus write succeeds on writable addresses and
stores the byte (spec section 6). -/
def Mmu.write (m : Mmu) (a v : Nat) : Option Mmu :=
  if m.writable a then
    some { m with data := fun x => if x = a then v % 256 else m.data x }
  else none

/-- The CPU state of struct Cpu in src/src/emu/cpu/mod.rs: eight registers,
PC, SP, the bus, the cycle counter, IME, halted, debug-halted, the trace
ring (VecDeque) and the breakpoint set. -/
structure Cpu where
  registers : Register8 → Nat
  pc : Nat
  sp : Nat
  mmu : Mmu
  cycle : Nat
  interrupt_master_enable : Bool
  halted : Bool
  debug_halted : Bool
  last_instructions : List (Nat × Instruction)
  breakpoints : List Nat

/-- The error values the executor can surface: a bus failure, or the
"write to immediate" panic of write_operand (src/src/emu/cpu/mod.rs). -/
inductive EErr
  | bus
  | immWrite
deriving DecidableEq

/-- State-threading computation over the CPU: Rust methods that mutate
self and return Result (propagated with try!).  The state is kept on
error, matching mutation-before-error in the source. -/
def M (α : Type) : Type := Cpu → Except EErr α × Cpu

/-- Monadic return for M. -/
def M.pure (a : α) : M α := fun s => (.ok a, s)

/-- Monadic bind for M: the Rust try! chaining. -/
def M.bind (x : M α) (f : α → M β) : M β := fun s =>
  match x s with
  | (.ok a, s1) => f a s1
  | (.error e, s1) => (.error e, s1)

instance : Monad M where
  pure := M.pure
  bind := M.bind

/-- Read the whole CPU state. -/
def getS : M Cpu := fun s => (.ok s, s)

/-- Apply a pure state update. -/
def modifyS (f : Cpu → Cpu) : M Unit := fun s => (.ok (), f s)

/-- Fail with an error, keeping the state. -/
def throwE (e : EErr) : M α := fun s => (.error e, s)

/-- Read one byte through the bus (self.mmu.read), failing with a bus
error when the bus rejects the access. -/
def mmuRead (a : Nat) : M Nat := fun s =>
  match s.mmu.read a with
  | some v => (.ok v, s)
  | none => (.error .bus, s)

/-- Write one byte through the bus (self.mmu.write). -/
def mmuWrite (a v : Nat) : M Unit := fun s =>
  match s.mmu.write a v with
  | some m => (.ok (), { s with mmu := m })
  | none => (.error .bus, s)

/-- Modelled from the spec: mem.rs read16, the little-endian helper: low
byte at the address, high byte above it (spec section 6). -/
def mmuRead16 (a : Nat) : M Nat := do
  let l ← mmuRead a
  let h ← mmuRead ((a + 1) % 65536)
  pure (hi_lo h l)

/-- Modelled from the spec: mem.rs write16, the little-endian helper. -/
def mmuWrite16 (a v : Nat) : M Unit := do
  mmuWrite a (lo v)
  mmuWrite ((a + 1) % 65536) (hi v)

/-- Write one 8-bit register, keeping it a byte (the register array holds
u8 values). -/
def Cpu.setReg (s : Cpu) (r : Register8) (v : Nat) : Cpu :=
  { s with registers := fun x => if x = r then v % 256 else s.registers x }

/-- Cpu::read_r16 from src/src/emu/cpu/mod.rs: SP and PC natively, pairs
composed high-byte first. -/
def Cpu.read_r16 (s : Cpu) (r : Register16) : Nat :=
  match r with
  | .SP => s.sp
  | .PC => s.pc
  | .AF => hi_lo (s.registers .A) (s.registers .F)
  | .BC => hi_lo (s.registers .B) (s.registers .C)
  | .DE => hi_lo (s.registers .D) (s.registers .E)
  | .HL => hi_lo (s.registers .H) (s.registers .L)

/-- Cpu::write_r16 from src/src/emu/cpu/mod.rs.  Note the AF case writes
lo(v) into F with no masking of the low nibble. -/
def Cpu.write_r16 (s : Cpu) (r : Register16) (v : Nat) : Cpu :=
  match r with
  | .SP => { s with sp := v % 65536 }
  | .PC => { s with pc := v % 65536 }
  | .AF => (s.setReg .A (hi v)).setReg .F (lo v)
  | .BC => (s.setReg .B (hi v)).setReg .C (lo v)
  | .DE => (s.setReg .D (hi v)).setReg .E (lo v)
  | .HL => (s.setReg .H (hi v)).setReg .L (lo v)

/-- Read one 8-bit register. -/
def getReg (r : Register8) : M Nat := fun s => (.ok (s.registers r), s)

/-- Write one 8-bit register, in M. -/
def setReg (r : Register8) (v : Nat) : M Unit := modifyS (fun s => s.setReg r v)

/-- Write the flags register F, in M. -/
def setF (v : Nat) : M Unit := setReg .F v

/-- Read the flags register F (Cpu::flags). -/
def getFlags : M Nat := getReg .F

/-- Write a 16-bit register pair, in M. -/
def writeR16M (r : Register16) (v : Nat) : M Unit := modifyS (fun s => s.write_r16 r v)

/-- Cpu::read_indirect: dereference a 16-bit register as an address. -/
def readIndirect (r : Register16) : M Nat := do
  let s ← getS
  mmuRead (s.read_r16 r)

/-- Cpu::write_indirect. -/
def writeIndirect (r : Register16) (v : Nat) : M Unit := do
  let s ← getS
  mmuWrite (s.read_r16 r) v

/-- Cpu::push16: SP is decremented by two (wrapping) and the value stored
little-endian at the new SP; SP is updated only after a successful store. -/
def push16 (v : Nat) : M Unit := do
  let s ← getS
  let nsp := (s.sp + 65534) % 65536
  mmuWrite16 nsp v
  modifyS (fun t => { t with sp := nsp })

/-- Cpu::pop16: load 16 bits at SP, then SP is incremented by two. -/
def pop16 : M Nat := do
  let s ← getS
  let v ← mmuRead16 s.sp
  modifyS (fun t => { t with sp := (t.sp + 2) % 65536 })
  pure v

/-- Cpu::read_operand from src/src/emu/cpu/mod.rs. -/
def read_operand (o : Operand) : M Nat :=
  match o with
  | .Immediate v => pure v
  | .Register r => getReg r
  | .IndirectRegister ir => readIndirect ir
  | .IndirectAddress a => mmuRead a

/-- Cpu::write_operand from src/src/emu/cpu/mod.rs.  A write to an
Immediate operand is the panic branch, modelled as the immWrite error. -/
def write_operand (o : Operand) (v : Nat) : M Unit :=
  match o with
  | .Immediate _ => throwE .immWrite
  | .Register r => setReg r v
  | .IndirectAddress a => mmuWrite a v
  | .IndirectRegister r => writeIndirect r v

/-- Condition check for the merged conditional control forms; the executor
in src/src/emu/cpu/mod.rs tests get_zero or get_carry per variant (JrNZI
tests not-zero, JrCI tests carry, and so on). -/
def ConditionCode.check (cc : ConditionCode) (f : Nat) : Bool :=
  match cc with
  | .NZ => !getZero f
  | .Z => getZero f
  | .NC => !getCarry f
  | .C => getCarry f

/-- Relative jump target: pc += o with a signed 8-bit offset, wrapping in
16 bits (Address arithmetic wraps, spec section 3). -/
def addRel (pc : Nat) (o : Int) : Nat := ((pc + o) % 65536).toNat

/-- Cpu::execute_arith from src/src/emu/cpu/mod.rs, with the per-operand
variants of the missing old instruction type merged into the decoded
Operand forms (AddN, AddR, AddI become Add of an operand, and so on;
the operand order of each source arm is kept, including the swapped
subtract-with-carry order sbc(operand, A)).  AddSP is modelled from the
spec (section 4.2, 0xE8) since no executor for it is under src/. -/
def executeArith (a : Arith) : M Unit :=
  match a with
  | .Add o => do
      let v1 ← read_operand o
      let v2 ← getReg .A
      let p := alu.add v1 v2
      setReg .A (p.1)
      setF (p.2)
  | .AddWithCarry o => do
      let v1 ← read_operand o
      let v2 ← getReg .A
      let fl ← getFlags
      let p := alu.adc v1 v2 (getCarry fl)
      setReg .A (p.1)
      setF (p.2)
  | .Subtract o => do
      let v1 ← getReg .A
      let v2 ← read_operand o
      let p := alu.sub v1 v2
      setReg .A (p.1)
      setF (p.2)
  | .SubtractWithCarry o => do
      let v1 ← read_operand o
      let v2 ← getReg .A
      let fl ← getFlags
      let p := alu.sbc v1 v2 (getCarry fl)
      setReg .A (p.1)
      setF (p.2)
  | .Increment o => do
      let v ← read_operand o
      let fl ← getFlags
      let p := alu.inc v fl
      write_operand o (p.1)
      setF (p.2)
  | .Decrement o => do
      let v ← read_operand o
      let fl ← getFlags
      let p := alu.dec v fl
      write_operand o (p.1)
      setF (p.2)
  | .DecrementRegister16 r =>
      modifyS (fun s => s.write_r16 r ((s.read_r16 r + 65535) % 65536))
  | .IncrementRegister16 r =>
      modifyS (fun s => s.write_r16 r ((s.read_r16 r + 1) % 65536))
  | .AddRegisterRegister16 d src => do
      let s ← getS
      let p := alu.add16 (s.read_r16 d) (s.read_r16 src) (s.registers .F)
      writeR16M d (p.1)
      setF (p.2)
  | .AddSP n => do
      let s ← getS
      let p := alu.add16 s.sp (i8ToU16 n) (s.registers .F)
      writeR16M .SP (p.1)
      setF (set_subtract (set_zero (p.2) false) false)
  | .DecimalAdjustAccumulator => do
      let a ← getReg .A
      let fl ← getFlags
      let p := alu.daa a fl
      setReg .A (p.1)
      setF (p.2)

/-- Cpu::execute_bits from src/src/emu/cpu/mod.rs, merged onto the decoded
variants.  ShiftRightArithmetic is modelled from the spec (section 4.1,
sra) since the old executor under src/ has no case for it. -/
def executeBits (b : Bits) : M Unit :=
  match b with
  | .Complement => do
      let fl ← getFlags
      let v ← getReg .A
      setReg .A (255 - v % 256)
      setF (set_halfcarry (set_subtract fl true) true)
  | .Swap o => do
      let v ← read_operand o
      let p := alu.swap v
      write_operand o (p.1)
      setF (p.2)
  | .ShiftLeftArithmetic o => do
      let v ← read_operand o
      let p := alu.sla v
      write_operand o (p.1)
      setF (p.2)
  | .ShiftRightLogical o => do
      let v ← read_operand o
      let p := alu.srl v
      write_operand o (p.1)
      setF (p.2)
  | .ShiftRightArithmetic o => do
      let v ← read_operand o
      let p := alu.sra v
      write_operand o (p.1)
      setF (p.2)
  | .RotateLeft o => do
      let v ← read_operand o
      let fl ← getFlags
      let p := alu.rl v fl
      write_operand o (p.1)
      setF (p.2)
  | .RotateRight o => do
      let v ← read_operand o
      let fl ← getFlags
      let p := alu.rr v fl
      write_operand o (p.1)
      setF (p.2)
  | .RotateRightAccumulator => do
      let v ← getReg .A
      let fl ← getFlags
      let p := alu.rr v fl
      setReg .A (p.1)
      setF (set_zero (p.2) false)
  | .RotateLeftAccumulator => do
      let v ← getReg .A
      let fl ← getFlags
      let p := alu.rl v fl
      setReg .A (p.1)
      setF (set_zero (p.2) false)
  | .RotateRightCarryAccumulator => do
      let v ← getReg .A
      let p := alu.rrc v
      setReg .A (p.1)
      setF (set_zero (p.2) false)
  | .RotateLeftCarryAccumulator => do
      let v ← getReg .A
      let p := alu.rlc v
      setReg .A (p.1)
      setF (set_zero (p.2) false)
  | .RotateLeftCarry o => do
      let v ← read_operand o
      let p := alu.rlc v
      write_operand o (p.1)
      setF (p.2)
  | .RotateRightCarry o => do
      let v ← read_operand o
      let p := alu.rrc v
      write_operand o (p.1)
      setF (p.2)
  | .GetBit n o => do
      let v ← read_operand o
      let fl ← getFlags
      setF (set_zero (set_subtract (set_halfcarry fl true) false) (v &&& (1 <<< n) = 0))
  | .ResetBit n o => do
      let v ← read_operand o
      write_operand o (v &&& (255 ^^^ (1 <<< n)))
  | .SetBit n o => do
      let v ← read_operand o
      write_operand o (v ||| (1 <<< n))

/-- Cpu::execute_control from src/src/emu/cpu/mod.rs, with the four
per-condition variants of each conditional form merged through
ConditionCode.check. -/
def executeControl (c : Control) : M Unit :=
  match c with
  | .JumpRelative o => modifyS (fun s => { s with pc := addRel s.pc o })
  | .JumpRelativeConditional o cc => do
      let fl ← getFlags
      if cc.check fl then modifyS (fun s => { s with pc := addRel s.pc o }) else pure ()
  | .Return => do
      let s ← getS
      let v ← mmuRead16 s.sp
      modifyS (fun t => { t with pc := v })
      modifyS (fun t => { t with sp := (t.sp + 2) % 65536 })
  | .InterruptReturn => do
      let s ← getS
      let v ← mmuRead16 s.sp
      modifyS (fun t => { t with pc := v })
      modifyS (fun t => { t with sp := (t.sp + 2) % 65536 })
      modifyS (fun t => { t with interrupt_master_enable := true })
  | .ReturnConditional cc => do
      let fl ← getFlags
      if cc.check fl then do
        let s ← getS
        let v ← mmuRead16 s.sp
        modifyS (fun t => { t with pc := v })
        modifyS (fun t => { t with sp := (t.sp + 2) % 65536 })
      else pure ()
  | .JumpIndirect => modifyS (fun s => { s with pc := s.read_r16 .HL })
  | .Jump a => modifyS (fun s => { s with pc := a % 65536 })
  | .JumpConditional a cc => do
      let fl ← getFlags
      if cc.check fl then modifyS (fun s => { s with pc := a % 65536 }) else pure ()
  | .Call a => do
      let s ← getS
      push16 s.pc
      modifyS (fun t => { t with pc := a % 65536 })
  | .Reset a => do
      let s ← getS
      push16 s.pc
      modifyS (fun t => { t with pc := a % 65536 })
  | .CallConditional a cc => do
      let fl ← getFlags
      if cc.check fl then do
        let s ← getS
        push16 s.pc
        modifyS (fun t => { t with pc := a % 65536 })
      else pure ()

/-- Cpu::execute_load from src/src/emu/cpu/mod.rs, merged onto the decoded
variants (LdNA and LdAN become LoadIndirectFromA and LoadAFromIndirect,
LdNCA is LoadIndirectHiFromA, and so on).  LoadMemoryFromSP is modelled
from the spec (section 4.2, opcode 0x08) since the old executor under
src/ has no case for it.  Pop writes through write_r16, which does not
mask the low nibble of F for AF. -/
def executeLoad (l : Load) : M Unit :=
  match l with
  | .Load o1 o2 => do
      let v ← read_operand o2
      write_operand o1 v
  | .LoadIndirectFromA d => do
      let s ← getS
      mmuWrite (s.read_r16 .HL) (s.registers .A)
      modifyS (fun t => t.write_r16 .HL ((s.read_r16 .HL + i8ToU16 d) % 65536))
  | .LoadAFromIndirect d => do
      let s ← getS
      let v ← mmuRead (s.read_r16 .HL)
      setReg .A v
      modifyS (fun t => t.write_r16 .HL ((s.read_r16 .HL + i8ToU16 d) % 65536))
  | .LoadIndirectHiFromA => do
      let s ← getS
      mmuWrite (0xFF00 + s.registers .C % 256) (s.registers .A)
  | .LoadAFromIndirectHi => do
      let s ← getS
      let v ← mmuRead (0xFF00 + s.registers .C % 256)
      setReg .A v
  | .LoadHLFromSP n => do
      let s ← getS
      let p := alu.add16 (s.read_r16 .SP) (i8ToU16 n) (s.registers .F)
      writeR16M .HL (p.1)
      setF (set_subtract (set_zero (p.2) false) false)
  | .LoadSPFromHL => modifyS (fun s => s.write_r16 .SP (s.read_r16 .HL))
  | .LoadIndirectRegisterFromA r => do
      let s ← getS
      writeIndirect r (s.registers .A)
  | .LoadAFromIndirectRegister r => do
      let v ← readIndirect r
      setReg .A v
  | .LoadRegisterImmediate16 r i => writeR16M r i
  | .LoadMemoryFromA a => do
      let v ← getReg .A
      mmuWrite a v
  | .LoadAFromMemory a => do
      let v ← mmuRead a
      setReg .A v
  | .LoadMemoryFromSP a => do
      let s ← getS
      mmuWrite16 a s.sp
  | .Pop r => do
      let v ← pop16
      writeR16M r v
  | .Push r => do
      let s ← getS
      push16 (s.read_r16 r)

/-- Cpu::execute_logic from src/src/emu/cpu/mod.rs, merged onto the
decoded variants. -/
def executeLogic (l : Logic) : M Unit :=
  match l with
  | .AndImmediate v => do
      let a ← getReg .A
      let p := alu.and a v
      setReg .A (p.1)
      setF (p.2)
  | .AndRegister reg => do
      let a ← getReg .A
      let v ← getReg reg
      let p := alu.and a v
      setReg .A (p.1)
      setF (p.2)
  | .AndIndirect => do
      let v ← readIndirect .HL
      let a ← getReg .A
      let p := alu.and a v
      setReg .A (p.1)
      setF (p.2)
  | .OrImmediate v => do
      let a ← getReg .A
      let p := alu.or a v
      setReg .A (p.1)
      setF (p.2)
  | .OrRegister reg => do
      let a ← getReg .A
      let v ← getReg reg
      let p := alu.or a v
      setReg .A (p.1)
      setF (p.2)
  | .OrIndirect => do
      let v ← readIndirect .HL
      let a ← getReg .A
      let p := alu.or a v
      setReg .A (p.1)
      setF (p.2)
  | .XorImmediate v => do
      let a ← getReg .A
      let p := alu.xor a v
      setReg .A (p.1)
      setF (p.2)
  | .XorRegister reg => do
      let a ← getReg .A
      let v ← getReg reg
      let p := alu.xor a v
      setReg .A (p.1)
      setF (p.2)
  | .XorIndirect => do
      let v ← readIndirect .HL
      let a ← getReg .A
      let p := alu.xor a v
      setReg .A (p.1)
      setF (p.2)

/-- The per-instruction body of Cpu::execute from src/src/emu/cpu/mod.rs:
everything except the final cycle charge.  ClearCarry is modelled from
the spec (design note a: toggle C, clear N and H, leave Z) and Stop is
modelled from the spec (section 4.3: treat as Halt), since the old
executor under src/ has no cases for them. -/
def executeBody (i : Instruction) : M Unit :=
  match i with
  | .Nop => pure ()
  | .EnableInterrupts => modifyS (fun s => { s with interrupt_master_enable := true })
  | .DisableInterrupts => modifyS (fun s => { s with interrupt_master_enable := false })
  | .Halt => modifyS (fun s => { s with halted := true })
  | .Stop => modifyS (fun s => { s with halted := true })
  | .SetCarry => do
      let fl ← getFlags
      setF (set_carry (set_halfcarry (set_subtract fl false) false) true)
  | .ClearCarry => do
      let fl ← getFlags
      setF (set_carry (set_halfcarry (set_subtract fl false) false) (!getCarry fl))
  | .Compare o => do
      let v ← read_operand o
      let a ← getReg .A
      setF (alu.sub a v).2
  | .Arith a => executeArith a
  | .Bits b => executeBits b
  | .Control c => executeControl c
  | .Load l => executeLoad l
  | .Logic l => executeLogic l

/-- Modelled from the spec: the nominal cycle table of section 4.3 for the
Arith family (the inst submodule holding Arith::cycles is missing). -/
def Arith.cycles (a : Arith) : Nat :=
  match a with
  | .Add (.Register _) | .AddWithCarry (.Register _)
  | .Subtract (.Register _) | .SubtractWithCarry (.Register _) => 4
  | .Add _ | .AddWithCarry _ | .Subtract _ | .SubtractWithCarry _ => 8
  | .Increment (.Register _) | .Decrement (.Register _) => 4
  | .Increment _ | .Decrement _ => 8
  | .IncrementRegister16 _ | .DecrementRegister16 _ | .AddRegisterRegister16 _ _ => 8
  | .AddSP _ => 16
  | .DecimalAdjustAccumulator => 4

/-- Modelled from the spec: the nominal cycle table of section 4.3 for the
Bits family (the inst submodule holding Bits::cycles is missing). -/
def Bits.cycles (b : Bits) : Nat :=
  match b with
  | .Complement => 4
  | .RotateLeftAccumulator | .RotateRightAccumulator
  | .RotateLeftCarryAccumulator | .RotateRightCarryAccumulator => 4
  | .RotateLeftCarry o | .RotateRightCarry o | .RotateLeft o | .RotateRight o
  | .ShiftLeftArithmetic o | .ShiftRightArithmetic o | .Swap o | .ShiftRightLogical o
  | .GetBit _ o | .ResetBit _ o | .SetBit _ o =>
      match o with
      | .IndirectRegister _ => 16
      | _ => 12

/-- Modelled from the spec: the nominal cycle table of section 4.3 for the
Control family (the inst submodule holding Control::cycles is missing). -/
def Control.cycles (c : Control) (branch_taken : Bool) : Nat :=
  match c with
  | .JumpIndirect => 4
  | .Jump _ => 12
  | .JumpConditional _ _ => 12
  | .JumpRelative _ => 12
  | .JumpRelativeConditional _ _ => if branch_taken then 12 else 8
  | .Return => 4
  | .InterruptReturn => 16
  | .ReturnConditional _ => if branch_taken then 12 else 8
  | .Call _ => 24
  | .CallConditional _ _ => if branch_taken then 24 else 16
  | .Reset _ => 24

/-- Modelled from the spec: the nominal cycle table of section 4.3 for the
Load family (the inst submodule holding Load::cycles is missing). -/
def Load.cycles (l : J2gbc.Load) : Nat :=
  match l with
  | .Load (.IndirectAddress _) _ | .Load _ (.IndirectAddress _) => 12
  | .Load _ (.Immediate _) => 8
  | .Load (.IndirectRegister _) _ | .Load _ (.IndirectRegister _) => 8
  | .Load _ _ => 4
  | .LoadMemoryFromSP _ => 16
  | .LoadRegisterImmediate16 _ _ => 12
  | .LoadMemoryFromA _ | .LoadAFromMemory _ => 16
  | .LoadIndirectHiFromA | .LoadAFromIndirectHi => 8
  | .LoadHLFromSP _ => 12
  | .LoadSPFromHL => 8
  | .LoadIndirectRegisterFromA _ | .LoadAFromIndirectRegister _ => 8
  | .LoadIndirectFromA _ | .LoadAFromIndirect _ => 8
  | .Push _ => 16
  | .Pop _ => 12

/-- Modelled from the spec: the nominal cycle table of section 4.3 for the
Logic family (the inst submodule holding Logic::cycles is missing). -/
def Logic.cycles (l : Logic) : Nat :=
  match l with
  | .AndRegister _ | .OrRegister _ | .XorRegister _ => 4
  | _ => 8

/-- Instruction::cycles from src/j2gbc/src/inst.rs, delegating to the
family tables.  Compare of an IndirectAddress is unreachable from the
decoder (the source marks it unimplemented); 8 is used as its value
here.  The executor under src/ charges a fixed count per instruction, so
it is applied with branch_taken arbitrary (false). -/
def Instruction.cycles (i : Instruction) (branch_taken : Bool) : Nat :=
  match i with
  | .Nop => 4
  | .EnableInterrupts => 4
  | .DisableInterrupts => 4
  | .Halt => 4
  | .Stop => 4
  | .SetCarry | .ClearCarry => 4
  | .Compare (.Immediate _) => 8
  | .Compare (.IndirectRegister _) => 8
  | .Compare (.Register _) => 4
  | .Compare (.IndirectAddress _) => 8
  | .Arith a => a.cycles
  | .Bits b => b.cycles
  | .Load l => l.cycles
  | .Control c => c.cycles branch_taken
  | .Logic l => l.cycles

/-- Cpu::execute from src/src/emu/cpu/mod.rs: run the instruction body,
then charge its nominal cycle count (not charged when the body failed,
since try! returns early). -/
def execute (i : Instruction) : M Unit := do
  executeBody i
  modifyS (fun s => { s with cycle := s.cycle + i.cycles false })

/-- Cpu::fetch_instruction: read the three-byte window at PC through the
bus and decode it.  Fetch takes the CPU by shared reference and mutates
nothing. -/
def fetchInstruction (s : Cpu) : Option (Instruction × Nat) :=
  match s.mmu.read s.pc, s.mmu.read ((s.pc + 1) % 65536), s.mmu.read ((s.pc + 2) % 65536) with
  | some b0, some b1, some b2 => Instruction.decode b0 b1 b2
  | _, _, _ => none

/-- Cpu::handle_interrupt from src/src/emu/cpu/mod.rs: when IME is set and
the interrupt's enable bit is set, push PC (propagating a push failure,
which skips everything below), jump to the vector and clear IME; then, in
all non-error paths, a halted CPU is woken. -/
def handleInterrupt (s : Cpu) (int : Interrupt) : Cpu × Bool :=
  if s.interrupt_master_enable ∧ int.is_enabled s.mmu.interrupt_enable then
    match push16 s.pc s with
    | (.error _, s1) => (s1, false)
    | (.ok _, s1) =>
      let s2 := { s1 with pc := int.table_address, interrupt_master_enable := false }
      if s2.halted then ({ s2 with halted := false }, true) else (s2, true)
  else
    if s.halted then ({ s with halted := false }, true) else (s, true)

/-- Cpu::drive_peripherals: pump the LCD with the current cycle and
dispatch an interrupt if one fired. -/
def drivePeripherals (s : Cpu) : Cpu × Bool :=
  match s.mmu.lcdPump s.cycle with
  | some i => handleInterrupt s i
  | none => (s, true)

/-- The trace-ring append and PC advance of Cpu::run_cycle (lines 613-619
of src/src/emu/cpu/mod.rs): pop the oldest entry when the ring length
exceeds 50, append the pair of the ROM-mapped PC and the instruction, and
advance PC by the decoded length. -/
def afterFetch (s : Cpu) (i : Instruction) (len : Nat) : Cpu :=
  let s1 := if s.last_instructions.length > 50
            then { s with last_instructions := s.last_instructions.tail }
            else s
  let s2 := { s1 with last_instructions :=
                s1.last_instructions ++ [(s1.mmu.mapRom s1.pc, i)] }
  { s2 with pc := (s2.pc + len) % 65536 }

/-- Cpu::run_cycle from src/src/emu/cpu/mod.rs: no-op when halted; fire a
one-shot breakpoint; fetch; append to the trace ring and advance PC
(afterFetch); execute; pump peripherals.  The Bool result is Rust's
Result (false is Err). -/
def runCycle (s : Cpu) : Cpu × Bool :=
  if s.halted then (s, true)
  else if s.breakpoints.contains s.pc then
    ({ s with breakpoints := s.breakpoints.erase s.pc }, false)
  else
    match fetchInstruction s with
    | none => (s, false)
    | some (i, len) =>
      match execute i (afterFetch s i len) with
      | (.error _, s4) => (s4, false)
      | (.ok _, s4) => drivePeripherals s4

/-- CLOCK_RATE from src/src/emu/cpu/mod.rs: 4_190_000. -/
def CLOCK_RATE : Nat := 4190000

/-- A std::time::Duration value: whole seconds and sub-second nanoseconds. -/
structure Duration where
  secs : Nat
  nanos : Nat

/-- duration_to_cycle_count from src/src/emu/cpu/mod.rs. -/
def duration_to_cycle_count (d : Duration) : Nat :=
  d.secs * CLOCK_RATE + CLOCK_RATE * d.nanos / 1000000000

/-- The halt-coalescing fast-forward inside run_for_duration: the cycle
counter is set to min(next LCD event cycle, the deadline). -/
def haltFastForward (s : Cpu) (stopAt : Nat) : Cpu :=
  { s with cycle := min s.mmu.lcdNextEventCycle stopAt }

/-- One iteration of the run_for_duration loop body: run a cycle, entering
debug-halt on error; when halted, fast-forward the cycle counter and
re-pump peripherals, entering debug-halt on error. -/
def runIteration (s : Cpu) (stopAt : Nat) : Cpu :=
  let s1 := match runCycle s with
            | (t, true) => t
            | (t, false) => { t with debug_halted := true }
  if s1.halted then
    let s2 := haltFastForward s1 stopAt
    match drivePeripherals s2 with
    | (t, true) => t
    | (t, false) => { t with debug_halted := true }
  else s1

/-- The run_for_duration while-loop, with explicit fuel: loop while the
cycle counter is below the deadline and the CPU is not debug-halted.
Returns none when the fuel runs out before the loop exits. -/
def runLoop (fuel : Nat) (s : Cpu) (stopAt : Nat) : Option Cpu :=
  match fuel with
  | 0 => if s.cycle < stopAt ∧ ¬s.debug_halted then none else some s
  | fuel1 + 1 =>
      if s.cycle < stopAt ∧ ¬s.debug_halted then
        runLoop fuel1 (runIteration s stopAt) stopAt
      else some s

/-- Cpu::run_for_duration from src/src/emu/cpu/mod.rs: compute the cycle
budget from the duration and loop until the deadline or debug-halt. -/
def run_for_duration (s : Cpu) (d : Duration) (fuel : Nat) : Option Cpu :=
  runLoop fuel s (s.cycle + duration_to_cycle_count d)

/-- An operand is an immediate. -/
def Operand.isImm : Operand → Bool
  | .Immediate _ => true
  | _ => false

/-- Well-formedness of decoded Arith values: the written operand of an
increment or decrement is never an immediate. -/
def Arith.wellFormed : Arith → Bool
  | .Increment o | .Decrement o => !o.isImm
  | _ => true

/-- Well-formedness of decoded Bits values: the written operand of the
read-modify-write forms is never an immediate. -/
def Bits.wellFormed : Bits → Bool
  | .Swap o | .ShiftLeftArithmetic o | .ShiftRightLogical o
  | .ShiftRightArithmetic o | .RotateLeft o | .RotateRight o
  | .RotateLeftCarry o | .RotateRightCarry o
  | .ResetBit _ o | .SetBit _ o => !o.isImm
  | _ => true

/-- Well-formedness of decoded Load values: the destination of an 8-bit
load is never an immediate. -/
def Load.wellFormed : J2gbc.Load → Bool
  | .Load dst _ => !dst.isImm
  | _ => true

/-- Well-formedness of decoded instructions: no write destination is an
immediate operand. -/
def Instruction.wellFormed : Instruction → Bool
  | .Arith a => a.wellFormed
  | .Bits b => b.wellFormed
  | .Load l => l.wellFormed
  | _ => true

/-- The register-field mapping never produces an immediate operand. -/
theorem isImm_from_bits (v off : Nat) : (Operand.from_bits v off).isImm = false := by
  unfold Operand.from_bits
  split <;> rfl

/-- A computation is steady when it changes neither the cycle counter nor
the trace ring, whatever the starting state. -/
def Steady {α : Type} (m : M α) : Prop :=
  ∀ s : Cpu, ((m s).2.cycle = s.cycle) ∧ ((m s).2.last_instructions = s.last_instructions)

/-- A computation never fails with the immediate-write panic. -/
def NoImm {α : Type} (m : M α) : Prop :=
  ∀ s : Cpu, (m s).1 ≠ Except.error EErr.immWrite

theorem bind_apply_ok {α β : Type} {x : M α} {f : α → M β} {s s1 : Cpu} {a : α}
    (h : x s = (.ok a, s1)) : (x >>= f) s = f a s1 := by
  show M.bind x f s = _
  unfold M.bind
  rw [h]

theorem bind_apply_error {α β : Type} {x : M α} {f : α → M β} {s s1 : Cpu} {e : EErr}
    (h : x s = (.error e, s1)) : (x >>= f) s = (.error e, s1) := by
  show M.bind x f s = _
  unfold M.bind
  rw [h]

theorem steady_bind {α β : Type} {x : M α} {f : α → M β}
    (hx : Steady x) (hf : ∀ a, Steady (f a)) : Steady (x >>= f) := by
  intro s
  have hx1 := hx s
  rcases h : x s with ⟨r, s1⟩
  rw [h] at hx1
  cases r with
  | ok a =>
    have hf1 := hf a s1
    rw [bind_apply_ok h]
    exact ⟨hf1.1.trans hx1.1, hf1.2.trans hx1.2⟩
  | error e =>
    rw [bind_apply_error h]
    exact hx1

theorem noimm_bind {α β : Type} {x : M α} {f : α → M β}
    (hx : NoImm x) (hf : ∀ a, NoImm (f a)) : NoImm (x >>= f) := by
  intro s
  have hx1 := hx s
  rcases h : x s with ⟨r, s1⟩
  rw [h] at hx1
  cases r with
  | ok a =>
    rw [bind_apply_ok h]
    exact hf a s1
  | error e =>
    rw [bind_apply_error h]
    simp only [ne_eq, Except.error.injEq] at hx1 ⊢
    exact hx1

theorem steady_ite {α : Type} {c : Prop} [Decidable c] {x y : M α}
    (hx : Steady x) (hy : Steady y) : Steady (if c then x else y) := by
  by_cases h : c <;> simp only [h, if_true, if_false, if_pos, if_neg, not_false_iff] <;>
    first | exact hx | exact hy

theorem noimm_ite {α : Type} {c : Prop} [Decidable c] {x y : M α}
    (hx : NoImm x) (hy : NoImm y) : NoImm (if c then x else y) := by
  by_cases h : c <;> simp only [h, if_true, if_false, if_pos, if_neg, not_false_iff] <;>
    first | exact hx | exact hy

theorem steady_pure {α : Type} (a : α) : Steady (pure a : M α) := fun _ => ⟨rfl, rfl⟩

theorem noimm_pure {α : Type} (a : α) : NoImm (pure a : M α) := fun _ h => by cases h

theorem steady_getS : Steady getS := fun _ => ⟨rfl, rfl⟩

theorem noimm_getS : NoImm getS := fun _ h => by cases h

theorem steady_getReg (r : Register8) : Steady (getReg r) := fun _ => ⟨rfl, rfl⟩

theorem noimm_getReg (r : Register8) : NoImm (getReg r) := fun _ h => by cases h

theorem steady_getFlags : Steady getFlags := fun _ => ⟨rfl, rfl⟩

theorem noimm_getFlags : NoImm getFlags := fun _ h => by cases h

theorem steady_setReg (r : Register8) (v : Nat) : Steady (setReg r v) := fun _ => ⟨rfl, rfl⟩

theorem noimm_setReg (r : Register8) (v : Nat) : NoImm (setReg r v) := fun _ h => by cases h

theorem steady_setF (v : Nat) : Steady (setF v) := fun _ => ⟨rfl, rfl⟩

theorem noimm_setF (v : Nat) : NoImm (setF v) := fun _ h => by cases h

theorem steady_modifyS {f : Cpu → Cpu}
    (h : ∀ s, (f s).cycle = s.cycle ∧ (f s).last_instructions = s.last_instructions) :
    Steady (modifyS f) := fun s => h s

theorem noimm_modifyS (f : Cpu → Cpu) : NoImm (modifyS f) := fun _ h => by cases h

theorem write_r16_steady (s : Cpu) (r : Register16) (v : Nat) :
    (s.write_r16 r v).cycle = s.cycle ∧ (s.write_r16 r v).last_instructions = s.last_instructions := by
  cases r <;> exact ⟨rfl, rfl⟩

theorem steady_writeR16M (r : Register16) (v : Nat) : Steady (writeR16M r v) :=
  fun s => write_r16_steady s r v

theorem noimm_writeR16M (r : Register16) (v : Nat) : NoImm (writeR16M r v) := fun _ h => by cases h

theorem steady_mmuRead (a : Nat) : Steady (mmuRead a) := by
  intro s
  unfold mmuRead
  cases s.mmu.read a <;> exact ⟨rfl, rfl⟩

theorem noimm_mmuRead (a : Nat) : NoImm (mmuRead a) := by
  intro s
  unfold mmuRead
  cases s.mmu.read a <;> intro h <;> cases h

theorem steady_mmuWrite (a v : Nat) : Steady (mmuWrite a v) := by
  intro s
  unfold mmuWrite
  cases s.mmu.write a v <;> exact ⟨rfl, rfl⟩

theorem noimm_mmuWrite (a v : Nat) : NoImm (mmuWrite a v) := by
  intro s
  unfold mmuWrite
  cases s.mmu.write a v <;> intro h <;> cases h

theorem steady_mmuRead16 (a : Nat) : Steady (mmuRead16 a) :=
  steady_bind (steady_mmuRead a) fun _ =>
    steady_bind (steady_mmuRead _) fun _ => steady_pure _

theorem noimm_mmuRead16 (a : Nat) : NoImm (mmuRead16 a) :=
  noimm_bind (noimm_mmuRead a) fun _ =>
    noimm_bind (noimm_mmuRead _) fun _ => noimm_pure _

theorem steady_mmuWrite16 (a v : Nat) : Steady (mmuWrite16 a v) :=
  steady_bind (steady_mmuWrite a _) fun _ => steady_mmuWrite _ _

theorem noimm_mmuWrite16 (a v : Nat) : NoImm (mmuWrite16 a v) :=
  noimm_bind (noimm_mmuWrite a _) fun _ => noimm_mmuWrite _ _

theorem steady_readIndirect (r : Register16) : Steady (readIndirect r) :=
  steady_bind steady_getS fun _ => steady_mmuRead _

theorem noimm_readIndirect (r : Register16) : NoImm (readIndirect r) :=
  noimm_bind noimm_getS fun _ => noimm_mmuRead _

theorem steady_writeIndirect (r : Register16) (v : Nat) : Steady (writeIndirect r v) :=
  steady_bind steady_getS fun _ => steady_mmuWrite _ _

theorem noimm_writeIndirect (r : Register16) (v : Nat) : NoImm (writeIndirect r v) :=
  noimm_bind noimm_getS fun _ => noimm_mmuWrite _ _

theorem steady_push16 (v : Nat) : Steady (push16 v) :=
  steady_bind steady_getS fun _ =>
    steady_bind (steady_mmuWrite16 _ _) fun _ =>
      steady_modifyS fun _ => ⟨rfl, rfl⟩

theorem noimm_push16 (v : Nat) : NoImm (push16 v) :=
  noimm_bind noimm_getS fun _ =>
    noimm_bind (noimm_mmuWrite16 _ _) fun _ => noimm_modifyS _

theorem steady_pop16 : Steady pop16 :=
  steady_bind steady_getS fun _ =>
    steady_bind (steady_mmuRead16 _) fun _ =>
      steady_bind (steady_modifyS fun _ => ⟨rfl, rfl⟩) fun _ => steady_pure _

theorem noimm_pop16 : NoImm pop16 :=
  noimm_bind noimm_getS fun _ =>
    noimm_bind (noimm_mmuRead16 _) fun _ =>
      noimm_bind (noimm_modifyS _) fun _ => noimm_pure _

theorem steady_read_operand (o : Operand) : Steady (read_operand o) := by
  cases o with
  | Immediate v => exact steady_pure v
  | Register r => exact steady_getReg r
  | IndirectRegister r => exact steady_readIndirect r
  | IndirectAddress a => exact steady_mmuRead a

theorem noimm_read_operand (o : Operand) : NoImm (read_operand o) := by
  cases o with
  | Immediate v => exact noimm_pure v
  | Register r => exact noimm_getReg r
  | IndirectRegister r => exact noimm_readIndirect r
  | IndirectAddress a => exact noimm_mmuRead a

theorem steady_throwE {α : Type} (e : EErr) : Steady (throwE e : M α) := fun _ => ⟨rfl, rfl⟩

theorem steady_write_operand (o : Operand) (v : Nat) : Steady (write_operand o v) := by
  cases o with
  | Immediate w => exact steady_throwE _
  | Register r => exact steady_setReg r v
  | IndirectRegister r => exact steady_writeIndirect r v
  | IndirectAddress a => exact steady_mmuWrite a v

theorem noimm_write_operand (o : Operand) (v : Nat) (h : o.isImm = false) :
    NoImm (write_operand o v) := by
  cases o with
  | Immediate w => exact absurd h (by simp [Operand.isImm])
  | Register r => exact noimm_setReg r v
  | IndirectRegister r => exact noimm_writeIndirect r v
  | IndirectAddress a => exact noimm_mmuWrite a v

theorem steadyApply {α : Type} {m : M α} (h : Steady m) (s : Cpu) :
    ((m s).2.cycle = s.cycle) ∧ ((m s).2.last_instructions = s.last_instructions) := h s

theorem noimmApply {α : Type} {m : M α} (h : NoImm m) (s : Cpu) :
    (m s).1 ≠ Except.error EErr.immWrite := h s

attribute [irreducible] Steady NoImm

theorem steady_executeArith (a : Arith) : Steady (executeArith a) := by
  cases a with
  | Add o =>
      exact steady_bind (steady_read_operand _) fun v1 =>
        steady_bind (steady_getReg _) fun v2 =>
          steady_bind (steady_setReg _ _) fun _ => steady_setF _
  | AddWithCarry o =>
      exact steady_bind (steady_read_operand _) fun v1 =>
        steady_bind (steady_getReg _) fun v2 =>
          steady_bind steady_getFlags fun fl =>
            steady_bind (steady_setReg _ _) fun _ => steady_setF _
  | Subtract o =>
      exact steady_bind (steady_getReg _) fun v1 =>
        steady_bind (steady_read_operand _) fun v2 =>
          steady_bind (steady_setReg _ _) fun _ => steady_setF _
  | SubtractWithCarry o =>
      exact steady_bind (steady_read_operand _) fun v1 =>
        steady_bind (steady_getReg _) fun v2 =>
          steady_bind steady_getFlags fun fl =>
            steady_bind (steady_setReg _ _) fun _ => steady_setF _
  | Increment o =>
      exact steady_bind (steady_read_operand _) fun v =>
        steady_bind steady_getFlags fun fl =>
          steady_bind (steady_write_operand _ _) fun _ => steady_setF _
  | Decrement o =>
      exact steady_bind (steady_read_operand _) fun v =>
        steady_bind steady_getFlags fun fl =>
          steady_bind (steady_write_operand _ _) fun _ => steady_setF _
  | DecrementRegister16 r =>
      exact steady_modifyS fun s => write_r16_steady s _ _
  | IncrementRegister16 r =>
      exact steady_modifyS fun s => write_r16_steady s _ _
  | AddRegisterRegister16 d src =>
      exact steady_bind steady_getS fun s =>
        steady_bind (steady_writeR16M _ _) fun _ => steady_setF _
  | AddSP n =>
      exact steady_bind steady_getS fun s =>
        steady_bind (steady_writeR16M _ _) fun _ => steady_setF _
  | DecimalAdjustAccumulator =>
      exact steady_bind (steady_getReg _) fun a =>
        steady_bind steady_getFlags fun fl =>
          steady_bind (steady_setReg _ _) fun _ => steady_setF _

theorem steady_executeBits (b : Bits) : Steady (executeBits b) := by
  cases b with
  | Complement =>
      exact steady_bind steady_getFlags fun fl =>
        steady_bind (steady_getReg _) fun v =>
          steady_bind (steady_setReg _ _) fun _ => steady_setF _
  | Swap o =>
      exact steady_bind (steady_read_operand _) fun v =>
        steady_bind (steady_write_operand _ _) fun _ => steady_setF _
  | ShiftLeftArithmetic o =>
      exact steady_bind (steady_read_operand _) fun v =>
        steady_bind (steady_write_operand _ _) fun _ => steady_setF _
  | ShiftRightLogical o =>
      exact steady_bind (steady_read_operand _) fun v =>
        steady_bind (steady_write_operand _ _) fun _ => steady_setF _
  | ShiftRightArithmetic o =>
      exact steady_bind (steady_read_operand _) fun v =>
        steady_bind (steady_write_operand _ _) fun _ => steady_setF _
  | RotateLeft o =>
      exact steady_bind (steady_read_operand _) fun v =>
        steady_bind steady_getFlags fun fl =>
          steady_bind (steady_write_operand _ _) fun _ => steady_setF _
  | RotateRight o =>
      exact steady_bind (steady_read_operand _) fun v =>
        steady_bind steady_getFlags fun fl =>
          steady_bind (steady_write_operand _ _) fun _ => steady_setF _
  | RotateRightAccumulator =>
      exact steady_bind (steady_getReg _) fun v =>
        steady_bind steady_getFlags fun fl =>
          steady_bind (steady_setReg _ _) fun _ => steady_setF _
  | RotateLeftAccumulator =>
      exact steady_bind (steady_getReg _) fun v =>
        steady_bind steady_getFlags fun fl =>
          steady_bind (steady_setReg _ _) fun _ => steady_setF _
  | RotateRightCarryAccumulator =>
      exact steady_bind (steady_getReg _) fun v =>
        steady_bind (steady_setReg _ _) fun _ => steady_setF _
  | RotateLeftCarryAccumulator =>
      exact steady_bind (steady_getReg _) fun v =>
        steady_bind (steady_setReg _ _) fun _ => steady_setF _
  | RotateLeftCarry o =>
      exact steady_bind (steady_read_operand _) fun v =>
        steady_bind (steady_write_operand _ _) fun _ => steady_setF _
  | RotateRightCarry o =>
      exact steady_bind (steady_read_operand _) fun v =>
        steady_bind (steady_write_operand _ _) fun _ => steady_setF _
  | GetBit n o =>
      exact steady_bind (steady_read_operand _) fun v =>
        steady_bind steady_getFlags fun fl => steady_setF _
  | ResetBit n o =>
      exact steady_bind (steady_read_operand _) fun v => steady_write_operand _ _
  | SetBit n o =>
      exact steady_bind (steady_read_operand _) fun v => steady_write_operand _ _

theorem steady_executeControl (c : Control) : Steady (executeControl c) := by
  cases c with
  | JumpRelative o => exact steady_modifyS fun _ => ⟨rfl, rfl⟩
  | JumpRelativeConditional o cc =>
      exact steady_bind steady_getFlags fun fl =>
        steady_ite (steady_modifyS fun _ => ⟨rfl, rfl⟩) (steady_pure _)
  | Return =>
      exact steady_bind steady_getS fun s =>
        steady_bind (steady_mmuRead16 _) fun v =>
          steady_bind (steady_modifyS fun _ => ⟨rfl, rfl⟩) fun _ =>
            steady_modifyS fun _ => ⟨rfl, rfl⟩
  | InterruptReturn =>
      exact steady_bind steady_getS fun s =>
        steady_bind (steady_mmuRead16 _) fun v =>
          steady_bind (steady_modifyS fun _ => ⟨rfl, rfl⟩) fun _ =>
            steady_bind (steady_modifyS fun _ => ⟨rfl, rfl⟩) fun _ =>
              steady_modifyS fun _ => ⟨rfl, rfl⟩
  | ReturnConditional cc =>
      exact steady_bind steady_getFlags fun fl =>
        steady_ite
          (steady_bind steady_getS fun s =>
            steady_bind (steady_mmuRead16 _) fun v =>
              steady_bind (steady_modifyS fun _ => ⟨rfl, rfl⟩) fun _ =>
                steady_modifyS fun _ => ⟨rfl, rfl⟩)
          (steady_pure _)
  | JumpIndirect => exact steady_modifyS fun _ => ⟨rfl, rfl⟩
  | Jump a => exact steady_modifyS fun _ => ⟨rfl, rfl⟩
  | JumpConditional a cc =>
      exact steady_bind steady_getFlags fun fl =>
        steady_ite (steady_modifyS fun _ => ⟨rfl, rfl⟩) (steady_pure _)
  | Call a =>
      exact steady_bind steady_getS fun s =>
        steady_bind (steady_push16 _) fun _ => steady_modifyS fun _ => ⟨rfl, rfl⟩
  | Reset a =>
      exact steady_bind steady_getS fun s =>
        steady_bind (steady_push16 _) fun _ => steady_modifyS fun _ => ⟨rfl, rfl⟩
  | CallConditional a cc =>
      exact steady_bind steady_getFlags fun fl =>
        steady_ite
          (steady_bind steady_getS fun s =>
            steady_bind (steady_push16 _) fun _ => steady_modifyS fun _ => ⟨rfl, rfl⟩)
          (steady_pure _)

theorem steady_executeLoad (l : J2gbc.Load) : Steady (executeLoad l) := by
  cases l with
  | Load o1 o2 =>
      exact steady_bind (steady_read_operand _) fun v => steady_write_operand _ _
  | LoadIndirectFromA d =>
      exact steady_bind steady_getS fun s =>
        steady_bind (steady_mmuWrite _ _) fun _ =>
          steady_modifyS fun t => write_r16_steady t _ _
  | LoadAFromIndirect d =>
      exact steady_bind steady_getS fun s =>
        steady_bind (steady_mmuRead _) fun v =>
          steady_bind (steady_setReg _ _) fun _ =>
            steady_modifyS fun t => write_r16_steady t _ _
  | LoadIndirectHiFromA =>
      exact steady_bind steady_getS fun s => steady_mmuWrite _ _
  | LoadAFromIndirectHi =>
      exact steady_bind steady_getS fun s =>
        steady_bind (steady_mmuRead _) fun v => steady_setReg _ _
  | LoadHLFromSP n =>
      exact steady_bind steady_getS fun s =>
        steady_bind (steady_writeR16M _ _) fun _ => steady_setF _
  | LoadSPFromHL => exact steady_modifyS fun s => write_r16_steady s _ _
  | LoadIndirectRegisterFromA r =>
      exact steady_bind steady_getS fun s => steady_writeIndirect _ _
  | LoadAFromIndirectRegister r =>
      exact steady_bind (steady_readIndirect _) fun v => steady_setReg _ _
  | LoadRegisterImmediate16 r i => exact steady_writeR16M _ _
  | LoadMemoryFromA a =>
      exact steady_bind (steady_getReg _) fun v => steady_mmuWrite _ _
  | LoadAFromMemory a =>
      exact steady_bind (steady_mmuRead _) fun v => steady_setReg _ _
  | LoadMemoryFromSP a =>
      exact steady_bind steady_getS fun s => steady_mmuWrite16 _ _
  | Pop r =>
      exact steady_bind steady_pop16 fun v => steady_writeR16M _ _
  | Push r =>
      exact steady_bind steady_getS fun s => steady_push16 _

theorem steady_executeLogic (l : Logic) : Steady (executeLogic l) := by
  cases l with
  | AndImmediate v =>
      exact steady_bind (steady_getReg _) fun a =>
        steady_bind (steady_setReg _ _) fun _ => steady_setF _
  | AndRegister r =>
      exact steady_bind (steady_getReg _) fun a =>
        steady_bind (steady_getReg _) fun v =>
          steady_bind (steady_setReg _ _) fun _ => steady_setF _
  | AndIndirect =>
      exact steady_bind (steady_readIndirect _) fun v =>
        steady_bind (steady_getReg _) fun a =>
          steady_bind (steady_setReg _ _) fun _ => steady_setF _
  | OrImmediate v =>
      exact steady_bind (steady_getReg _) fun a =>
        steady_bind (steady_setReg _ _) fun _ => steady_setF _
  | OrRegister r =>
      exact steady_bind (steady_getReg _) fun a =>
        steady_bind (steady_getReg _) fun v =>
          steady_bind (steady_setReg _ _) fun _ => steady_setF _
  | OrIndirect =>
      exact steady_bind (steady_readIndirect _) fun v =>
        steady_bind (steady_getReg _) fun a =>
          steady_bind (steady_setReg _ _) fun _ => steady_setF _
  | XorImmediate v =>
      exact steady_bind (steady_getReg _) fun a =>
        steady_bind (steady_setReg _ _) fun _ => steady_setF _
  | XorRegister r =>
      exact steady_bind (steady_getReg _) fun a =>
        steady_bind (steady_getReg _) fun v =>
          steady_bind (steady_setReg _ _) fun _ => steady_setF _
  | XorIndirect =>
      exact steady_bind (steady_readIndirect _) fun v =>
        steady_bind (steady_getReg _) fun a =>
          steady_bind (steady_setReg _ _) fun _ => steady_setF _

theorem steady_executeBody (i : Instruction) : Steady (executeBody i) := by
  cases i with
  | Nop => exact steady_pure _
  | EnableInterrupts => exact steady_modifyS fun _ => ⟨rfl, rfl⟩
  | DisableInterrupts => exact steady_modifyS fun _ => ⟨rfl, rfl⟩
  | Halt => exact steady_modifyS fun _ => ⟨rfl, rfl⟩
  | Stop => exact steady_modifyS fun _ => ⟨rfl, rfl⟩
  | SetCarry => exact steady_bind steady_getFlags fun fl => steady_setF _
  | ClearCarry => exact steady_bind steady_getFlags fun fl => steady_setF _
  | Compare o =>
      exact steady_bind (steady_read_operand _) fun v =>
        steady_bind (steady_getReg _) fun a => steady_setF _
  | Arith a => exact steady_executeArith a
  | Bits b => exact steady_executeBits b
  | Control c => exact steady_executeControl c
  | Load l => exact steady_executeLoad l
  | Logic l => exact steady_executeLogic l

/-- Executing any instruction leaves the trace ring unchanged and never
decreases the cycle counter (it charges the nominal count on success and
leaves the counter alone on failure). -/
theorem execute_cycle_trace (i : Instruction) (s : Cpu) :
    s.cycle ≤ ((execute i) s).2.cycle ∧
      ((execute i) s).2.last_instructions = s.last_instructions := by
  have hb := steady_executeBody i
  rcases h : executeBody i s with ⟨r, s1⟩
  have hb1 := steadyApply hb s
  rw [h] at hb1
  cases r with
  | ok a =>
    rw [show (execute i) s = _ from bind_apply_ok h]
    refine ⟨?_, hb1.2⟩
    show s.cycle ≤ s1.cycle + _
    rw [hb1.1.symm] at *
    exact Nat.le_add_right _ _
  | error e =>
    rw [show (execute i) s = (.error e, s1) from bind_apply_error h]
    exact ⟨le_of_eq hb1.1.symm, hb1.2⟩

theorem noimm_executeArith (a : Arith) (h : a.wellFormed = true) : NoImm (executeArith a) := by
  cases a with
  | Add o =>
      exact noimm_bind (noimm_read_operand _) fun v1 =>
        noimm_bind (noimm_getReg _) fun v2 =>
          noimm_bind (noimm_setReg _ _) fun _ => noimm_setF _
  | AddWithCarry o =>
      exact noimm_bind (noimm_read_operand _) fun v1 =>
        noimm_bind (noimm_getReg _) fun v2 =>
          noimm_bind noimm_getFlags fun fl =>
            noimm_bind (noimm_setReg _ _) fun _ => noimm_setF _
  | Subtract o =>
      exact noimm_bind (noimm_getReg _) fun v1 =>
        noimm_bind (noimm_read_operand _) fun v2 =>
          noimm_bind (noimm_setReg _ _) fun _ => noimm_setF _
  | SubtractWithCarry o =>
      exact noimm_bind (noimm_read_operand _) fun v1 =>
        noimm_bind (noimm_getReg _) fun v2 =>
          noimm_bind noimm_getFlags fun fl =>
            noimm_bind (noimm_setReg _ _) fun _ => noimm_setF _
  | Increment o =>
      have ho : o.isImm = false := by simpa [Arith.wellFormed] using h
      exact noimm_bind (noimm_read_operand _) fun v =>
        noimm_bind noimm_getFlags fun fl =>
          noimm_bind (noimm_write_operand _ _ ho) fun _ => noimm_setF _
  | Decrement o =>
      have ho : o.isImm = false := by simpa [Arith.wellFormed] using h
      exact noimm_bind (noimm_read_operand _) fun v =>
        noimm_bind noimm_getFlags fun fl =>
          noimm_bind (noimm_write_operand _ _ ho) fun _ => noimm_setF _
  | DecrementRegister16 r => exact noimm_modifyS _
  | IncrementRegister16 r => exact noimm_modifyS _
  | AddRegisterRegister16 d src =>
      exact noimm_bind noimm_getS fun s =>
        noimm_bind (noimm_writeR16M _ _) fun _ => noimm_setF _
  | AddSP n =>
      exact noimm_bind noimm_getS fun s =>
        noimm_bind (noimm_writeR16M _ _) fun _ => noimm_setF _
  | DecimalAdjustAccumulator =>
      exact noimm_bind (noimm_getReg _) fun a =>
        noimm_bind noimm_getFlags fun fl =>
          noimm_bind (noimm_setReg _ _) fun _ => noimm_setF _

theorem noimm_executeBits (b : Bits) (h : b.wellFormed = true) : NoImm (executeBits b) := by
  cases b with
  | Complement =>
      exact noimm_bind noimm_getFlags fun fl =>
        noimm_bind (noimm_getReg _) fun v =>
          noimm_bind (noimm_setReg _ _) fun _ => noimm_setF _
  | Swap o =>
      have ho : o.isImm = false := by simpa [Bits.wellFormed] using h
      exact noimm_bind (noimm_read_operand _) fun v =>
        noimm_bind (noimm_write_operand _ _ ho) fun _ => noimm_setF _
  | ShiftLeftArithmetic o =>
      have ho : o.isImm = false := by simpa [Bits.wellFormed] using h
      exact noimm_bind (noimm_read_operand _) fun v =>
        noimm_bind (noimm_write_operand _ _ ho) fun _ => noimm_setF _
  | ShiftRightLogical o =>
      have ho : o.isImm = false := by simpa [Bits.wellFormed] using h
      exact noimm_bind (noimm_read_operand _) fun v =>
        noimm_bind (noimm_write_operand _ _ ho) fun _ => noimm_setF _
  | ShiftRightArithmetic o =>
      have ho : o.isImm = false := by simpa [Bits.wellFormed] using h
      exact noimm_bind (noimm_read_operand _) fun v =>
        noimm_bind (noimm_write_operand _ _ ho) fun _ => noimm_setF _
  | RotateLeft o =>
      have ho : o.isImm = false := by simpa [Bits.wellFormed] using h
      exact noimm_bind (noimm_read_operand _) fun v =>
        noimm_bind noimm_getFlags fun fl =>
          noimm_bind (noimm_write_operand _ _ ho) fun _ => noimm_setF _
  | RotateRight o =>
      have ho : o.isImm = false := by simpa [Bits.wellFormed] using h
      exact noimm_bind (noimm_read_operand _) fun v =>
        noimm_bind noimm_getFlags fun fl =>
          noimm_bind (noimm_write_operand _ _ ho) fun _ => noimm_setF _
  | RotateRightAccumulator =>
      exact noimm_bind (noimm_getReg _) fun v =>
        noimm_bind noimm_getFlags fun fl =>
          noimm_bind (noimm_setReg _ _) fun _ => noimm_setF _
  | RotateLeftAccumulator =>
      exact noimm_bind (noimm_getReg _) fun v =>
        noimm_bind noimm_getFlags fun fl =>
          noimm_bind (noimm_setReg _ _) fun _ => noimm_setF _
  | RotateRightCarryAccumulator =>
      exact noimm_bind (noimm_getReg _) fun v =>
        noimm_bind (noimm_setReg _ _) fun _ => noimm_setF _
  | RotateLeftCarryAccumulator =>
      exact noimm_bind (noimm_getReg _) fun v =>
        noimm_bind (noimm_setReg _ _) fun _ => noimm_setF _
  | RotateLeftCarry o =>
      have ho : o.isImm = false := by simpa [Bits.wellFormed] using h
      exact noimm_bind (noimm_read_operand _) fun v =>
        noimm_bind (noimm_write_operand _ _ ho) fun _ => noimm_setF _
  | RotateRightCarry o =>
      have ho : o.isImm = false := by simpa [Bits.wellFormed] using h
      exact noimm_bind (noimm_read_operand _) fun v =>
        noimm_bind (noimm_write_operand _ _ ho) fun _ => noimm_setF _
  | GetBit n o =>
      exact noimm_bind (noimm_read_operand _) fun v =>
        noimm_bind noimm_getFlags fun fl => noimm_setF _
  | ResetBit n o =>
      have ho : o.isImm = false := by simpa [Bits.wellFormed] using h
      exact noimm_bind (noimm_read_operand _) fun v => noimm_write_operand _ _ ho
  | SetBit n o =>
      have ho : o.isImm = false := by simpa [Bits.wellFormed] using h
      exact noimm_bind (noimm_read_operand _) fun v => noimm_write_operand _ _ ho

theorem noimm_executeControl (c : Control) : NoImm (executeControl c) := by
  cases c with
  | JumpRelative o => exact noimm_modifyS _
  | JumpRelativeConditional o cc =>
      exact noimm_bind noimm_getFlags fun fl =>
        noimm_ite (noimm_modifyS _) (noimm_pure _)
  | Return =>
      exact noimm_bind noimm_getS fun s =>
        noimm_bind (noimm_mmuRead16 _) fun v =>
          noimm_bind (noimm_modifyS _) fun _ => noimm_modifyS _
  | InterruptReturn =>
      exact noimm_bind noimm_getS fun s =>
        noimm_bind (noimm_mmuRead16 _) fun v =>
          noimm_bind (noimm_modifyS _) fun _ =>
            noimm_bind (noimm_modifyS _) fun _ => noimm_modifyS _
  | ReturnConditional cc =>
      exact noimm_bind noimm_getFlags fun fl =>
        noimm_ite
          (noimm_bind noimm_getS fun s =>
            noimm_bind (noimm_mmuRead16 _) fun v =>
              noimm_bind (noimm_modifyS _) fun _ => noimm_modifyS _)
          (noimm_pure _)
  | JumpIndirect => exact noimm_modifyS _
  | Jump a => exact noimm_modifyS _
  | JumpConditional a cc =>
      exact noimm_bind noimm_getFlags fun fl =>
        noimm_ite (noimm_modifyS _) (noimm_pure _)
  | Call a =>
      exact noimm_bind noimm_getS fun s =>
        noimm_bind (noimm_push16 _) fun _ => noimm_modifyS _
  | Reset a =>
      exact noimm_bind noimm_getS fun s =>
        noimm_bind (noimm_push16 _) fun _ => noimm_modifyS _
  | CallConditional a cc =>
      exact noimm_bind noimm_getFlags fun fl =>
        noimm_ite
          (noimm_bind noimm_getS fun s =>
            noimm_bind (noimm_push16 _) fun _ => noimm_modifyS _)
          (noimm_pure _)

theorem noimm_executeLoad (l : J2gbc.Load) (h : l.wellFormed = true) : NoImm (executeLoad l) := by
  cases l with
  | Load o1 o2 =>
      have ho : o1.isImm = false := by simpa [Load.wellFormed] using h
      exact noimm_bind (noimm_read_operand _) fun v => noimm_write_operand _ _ ho
  | LoadIndirectFromA d =>
      exact noimm_bind noimm_getS fun s =>
        noimm_bind (noimm_mmuWrite _ _) fun _ => noimm_modifyS _
  | LoadAFromIndirect d =>
      exact noimm_bind noimm_getS fun s =>
        noimm_bind (noimm_mmuRead _) fun v =>
          noimm_bind (noimm_setReg _ _) fun _ => noimm_modifyS _
  | LoadIndirectHiFromA =>
      exact noimm_bind noimm_getS fun s => noimm_mmuWrite _ _
  | LoadAFromIndirectHi =>
      exact noimm_bind noimm_getS fun s =>
        noimm_bind (noimm_mmuRead _) fun v => noimm_setReg _ _
  | LoadHLFromSP n =>
      exact noimm_bind noimm_getS fun s =>
        noimm_bind (noimm_writeR16M _ _) fun _ => noimm_setF _
  | LoadSPFromHL => exact noimm_modifyS _
  | LoadIndirectRegisterFromA r =>
      exact noimm_bind noimm_getS fun s => noimm_writeIndirect _ _
  | LoadAFromIndirectRegister r =>
      exact noimm_bind (noimm_readIndirect _) fun v => noimm_setReg _ _
  | LoadRegisterImmediate16 r i => exact noimm_writeR16M _ _
  | LoadMemoryFromA a =>
      exact noimm_bind (noimm_getReg _) fun v => noimm_mmuWrite _ _
  | LoadAFromMemory a =>
      exact noimm_bind (noimm_mmuRead _) fun v => noimm_setReg _ _
  | LoadMemoryFromSP a =>
      exact noimm_bind noimm_getS fun s => noimm_mmuWrite16 _ _
  | Pop r =>
      exact noimm_bind noimm_pop16 fun v => noimm_writeR16M _ _
  | Push r =>
      exact noimm_bind noimm_getS fun s => noimm_push16 _

theorem noimm_executeLogic (l : Logic) : NoImm (executeLogic l) := by
  cases l with
  | AndImmediate v =>
      exact noimm_bind (noimm_getReg _) fun a =>
        noimm_bind (noimm_setReg _ _) fun _ => noimm_setF _
  | AndRegister r =>
      exact noimm_bind (noimm_getReg _) fun a =>
        noimm_bind (noimm_getReg _) fun v =>
          noimm_bind (noimm_setReg _ _) fun _ => noimm_setF _
  | AndIndirect =>
      exact noimm_bind (noimm_readIndirect _) fun v =>
        noimm_bind (noimm_getReg _) fun a =>
          noimm_bind (noimm_setReg _ _) fun _ => noimm_setF _
  | OrImmediate v =>
      exact noimm_bind (noimm_getReg _) fun a =>
        noimm_bind (noimm_setReg _ _) fun _ => noimm_setF _
  | OrRegister r =>
      exact noimm_bind (noimm_getReg _) fun a =>
        noimm_bind (noimm_getReg _) fun v =>
          noimm_bind (noimm_setReg _ _) fun _ => noimm_setF _
  | OrIndirect =>
      exact noimm_bind (noimm_readIndirect _) fun v =>
        noimm_bind (noimm_getReg _) fun a =>
          noimm_bind (noimm_setReg _ _) fun _ => noimm_setF _
  | XorImmediate v =>
      exact noimm_bind (noimm_getReg _) fun a =>
        noimm_bind (noimm_setReg _ _) fun _ => noimm_setF _
  | XorRegister r =>
      exact noimm_bind (noimm_getReg _) fun a =>
        noimm_bind (noimm_getReg _) fun v =>
          noimm_bind (noimm_setReg _ _) fun _ => noimm_setF _
  | XorIndirect =>
      exact noimm_bind (noimm_readIndirect _) fun v =>
        noimm_bind (noimm_getReg _) fun a =>
          noimm_bind (noimm_setReg _ _) fun _ => noimm_setF _

theorem noimm_executeBody (i : Instruction) (h : i.wellFormed = true) : NoImm (executeBody i) := by
  cases i with
  | Nop => exact noimm_pure _
  | EnableInterrupts => exact noimm_modifyS _
  | DisableInterrupts => exact noimm_modifyS _
  | Halt => exact noimm_modifyS _
  | Stop => exact noimm_modifyS _
  | SetCarry => exact noimm_bind noimm_getFlags fun fl => noimm_setF _
  | ClearCarry => exact noimm_bind noimm_getFlags fun fl => noimm_setF _
  | Compare o =>
      exact noimm_bind (noimm_read_operand _) fun v =>
        noimm_bind (noimm_getReg _) fun a => noimm_setF _
  | Arith a => exact noimm_executeArith a (by simpa [Instruction.wellFormed] using h)
  | Bits b => exact noimm_executeBits b (by simpa [Instruction.wellFormed] using h)
  | Control c => exact noimm_executeControl c
  | Load l => exact noimm_executeLoad l (by simpa [Instruction.wellFormed] using h)
  | Logic l => exact noimm_executeLogic l

/-- Executing a well-formed instruction never fails with the
immediate-write panic. -/
theorem noimm_execute (i : Instruction) (h : i.wellFormed = true) (s : Cpu) :
    ((execute i) s).1 ≠ Except.error EErr.immWrite := by
  have hb := noimm_executeBody i h
  rcases hx : executeBody i s with ⟨r, s1⟩
  have hb1 := noimmApply hb s
  rw [hx] at hb1
  cases r with
  | ok a =>
    rw [show (execute i) s = _ from bind_apply_ok hx]
    intro hc
    cases hc
  | error e =>
    rw [show (execute i) s = (.error e, s1) from bind_apply_error hx]
    simpa using hb1

theorem afterFetch_cycle (s : Cpu) (i : Instruction) (len : Nat) :
    (afterFetch s i len).cycle = s.cycle := by
  unfold afterFetch
  split <;> rfl

/-- The exact trace produced by the trace-ring step: the entry is
appended at the back, and when the ring already holds more than 50
entries its front (oldest) entry is dropped first. -/
theorem afterFetch_trace (s : Cpu) (i : Instruction) (len : Nat) :
    (afterFetch s i len).last_instructions =
      (if s.last_instructions.length > 50 then s.last_instructions.tail
       else s.last_instructions) ++ [(s.mmu.mapRom s.pc, i)] := by
  unfold afterFetch
  split <;> rfl

theorem afterFetch_trace_len (s : Cpu) (i : Instruction) (len : Nat) :
    (afterFetch s i len).last_instructions.length =
      if s.last_instructions.length > 50
      then s.last_instructions.length
      else s.last_instructions.length + 1 := by
  unfold afterFetch
  split <;> simp [List.length_tail] <;> omega

theorem handleInterrupt_cycle_trace (s : Cpu) (int : Interrupt) :
    (handleInterrupt s int).1.cycle = s.cycle ∧
      (handleInterrupt s int).1.last_instructions = s.last_instructions := by
  unfold handleInterrupt
  split
  · cases hp : push16 s.pc s with
    | mk r s1 =>
      have hps := steadyApply (steady_push16 s.pc) s
      rw [hp] at hps
      cases r with
      | error e => exact hps
      | ok a =>
        dsimp only
        split <;> exact hps
  · split <;> exact ⟨rfl, rfl⟩

theorem drivePeripherals_cycle_trace (s : Cpu) :
    (drivePeripherals s).1.cycle = s.cycle ∧
      (drivePeripherals s).1.last_instructions = s.last_instructions := by
  unfold drivePeripherals
  split
  · exact handleInterrupt_cycle_trace s _
  · exact ⟨rfl, rfl⟩

/-- The frame of one run_cycle step: the cycle counter never decreases,
and the trace ring grows by at most one entry, not growing at all when it
already holds more than 50 entries. -/
theorem runCycle_frame (s : Cpu) :
    s.cycle ≤ (runCycle s).1.cycle ∧
      (runCycle s).1.last_instructions.length ≤
        (if s.last_instructions.length > 50
         then s.last_instructions.length
         else s.last_instructions.length + 1) := by
  unfold runCycle
  split
  · exact ⟨le_refl _, by dsimp only; split <;> omega⟩
  · split
    · exact ⟨le_refl _, by dsimp only; split <;> omega⟩
    · split
      · exact ⟨le_refl _, by dsimp only; split <;> omega⟩
      · rename_i i len heq
        have hex := execute_cycle_trace i (afterFetch s i len)
        have hac := afterFetch_cycle s i len
        have hat := afterFetch_trace_len s i len
        rcases he : execute i (afterFetch s i len) with ⟨r, s4⟩
        rw [he] at hex
        cases r with
        | error e =>
          dsimp only
          refine ⟨hac ▸ hex.1, ?_⟩
          rw [hex.2, hat]
        | ok a =>
          have hd := drivePeripherals_cycle_trace s4
          dsimp only
          refine ⟨?_, ?_⟩
          · rw [hd.1]
            exact hac ▸ hex.1
          · rw [hd.2, hex.2, hat]

/-- The exact trace after a run_cycle that passes the halt and breakpoint
checks and fetches successfully: since execute and drive_peripherals
leave the trace ring alone, the resulting ring is exactly the one built
by the trace-ring step — the fetched pair appended at the back, with the
front (oldest) entry dropped first when the ring held more than 50
entries. -/
theorem runCycle_trace_eq (s : Cpu) (i : Instruction) (l : Nat)
    (hh : s.halted = false) (hb : s.breakpoints.contains s.pc = false)
    (hf : fetchInstruction s = some (i, l)) :
    (runCycle s).1.last_instructions =
      (if s.last_instructions.length > 50 then s.last_instructions.tail
       else s.last_instructions) ++ [(s.mmu.mapRom s.pc, i)] := by
  unfold runCycle
  rw [if_neg (by simp [hh]),
    if_neg (show ¬(s.breakpoints.contains s.pc = true) by
      intro hc; rw [hb] at hc; exact Bool.noConfusion hc)]
  split
  · rename_i hnone
    rw [hf] at hnone
    exact Option.noConfusion hnone
  · rename_i i2 l2 heq
    rw [hf] at heq
    injection heq with heq2
    injection heq2 with hi2 hl2
    subst hi2
    subst hl2
    have hex := execute_cycle_trace i (afterFetch s i l)
    rcases he : execute i (afterFetch s i l) with ⟨r, s4⟩
    rw [he] at hex
    cases r with
    | error e =>
      dsimp only
      rw [hex.2, afterFetch_trace]
    | ok a =>
      have hd := drivePeripherals_cycle_trace s4
      dsimp only
      rw [hd.2, hex.2, afterFetch_trace]

theorem M_bind_app {α β : Type} (x : M α) (f : α → M β) (s : Cpu) :
    (x >>= f) s = match x s with
      | (.ok a, s1) => f a s1
      | (.error e, s1) => (.error e, s1) := rfl

theorem getS_app (s : Cpu) : getS s = (.ok s, s) := rfl

theorem modifyS_app (f : Cpu → Cpu) (s : Cpu) : modifyS f s = (.ok (), f s) := rfl

theorem mmuWrite_app (a v : Nat) (s : Cpu) :
    mmuWrite a v s = match s.mmu.write a v with
      | some m => (.ok (), { s with mmu := m })
      | none => (.error .bus, s) := rfl

theorem mmuRead_app (a : Nat) (s : Cpu) :
    mmuRead a s = match s.mmu.read a with
      | some v => (.ok v, s)
      | none => (.error .bus, s) := rfl

theorem getReg_app (r : Register8) (s : Cpu) : getReg r s = (.ok (s.registers r), s) := rfl

theorem pure_app {α : Type} (a : α) (s : Cpu) : (pure a : M α) s = (.ok a, s) := rfl

/-- The exact success behavior of push16 when both stack bytes are
writable: the value is stored little-endian below the old SP and SP moves
down by two. -/
theorem push16_spec (s : Cpu) (v : Nat)
    (hw1 : s.mmu.writable ((s.sp + 65534) % 65536) = true)
    (hw2 : s.mmu.writable (((s.sp + 65534) % 65536 + 1) % 65536) = true) :
    push16 v s = (.ok (),
      { s with
        sp := (s.sp + 65534) % 65536,
        mmu := { s.mmu with data := fun x =>
          (if x = ((s.sp + 65534) % 65536 + 1) % 65536 then hi v % 256
           else if x = (s.sp + 65534) % 65536 then lo v % 256
           else s.mmu.data x) } }) := by
  simp only [push16, mmuWrite16, M_bind_app, getS_app, modifyS_app, mmuWrite_app,
    Mmu.write, hw1, hw2, if_true]

/-- Every successful decode of a byte window produces a well-formed
instruction: no write destination is an immediate operand. -/
theorem decode_wf (b0 b1 b2 : Nat) (hb0 : b0 < 256) (hb1 : b1 < 256)
    (i : Instruction) (l : Nat)
    (h : Instruction.decode b0 b1 b2 = some (i, l)) : i.wellFormed = true := by
  interval_cases b0 <;>
    first
      | exact Option.noConfusion h
      | (injection h with h1; injection h1 with hi hl; subst hi; rfl)
      | (rw [show Instruction.decode 16 b1 b2 = if b1 = 0 then some (.Stop, 2) else none from rfl] at h
         split at h
         · injection h with h1; injection h1 with hi hl; subst hi; rfl
         · exact Option.noConfusion h)
      | (interval_cases b1 <;>
          (injection h with h1; injection h1 with hi hl; subst hi; rfl))

/-- A flat bus for concrete runs: every address holds the given byte,
every address is readable and writable, IE enables VBlank only, the LCD
never fires and its next event is far away. -/
def flatMmu (byte : Nat) : Mmu where
  data := fun _ => byte
  readable := fun _ => true
  writable := fun _ => true
  interrupt_enable := 1
  lcdNextEventCycle := 1000
  lcdPump := fun _ => none
  mapRom := fun a => a

/-- A concrete CPU state for witnesses and counterexamples. -/
def baseCpu : Cpu where
  registers := fun _ => 0
  pc := 0x100
  sp := 0xFFF0
  mmu := flatMmu 0
  cycle := 0
  interrupt_master_enable := false
  halted := false
  debug_halted := false
  last_instructions := []
  breakpoints := []

/-- Claim C3, counterexample: byte 0x10 is neither 0xCB nor reserved, yet
decode fails on the window [0x10, 0x01, 0x00], so decode does not succeed
for every non-reserved non-CB first byte and all following bytes. -/
theorem decode_malformed_stop_refutes_totality :
    (0x10 : Nat) ∉ reservedOpcodes ∧ (0x10 : Nat) ≠ 0xCB ∧
      Instruction.decode 0x10 0x01 0x00 = none :=
  ⟨by decide, by decide, rfl⟩

/-- Claim C3 (amended): for every opcode byte b below 256 that is not
0xCB, not 0x10 and not reserved, decode of [b, x, y] succeeds for all x
and y and reports the length of the reference table; for b = 0x10 the
window decodes exactly when the second byte is 0x00 (to Stop, length 2). -/
theorem decode_total_with_reference_lengths (b0 b1 b2 y : Nat) (hb0 : b0 < 256)
    (hres : b0 ∉ reservedOpcodes) (hcb : b0 ≠ 0xCB) (hstop : b0 ≠ 0x10) :
    (Instruction.decode b0 b1 b2).map Prod.snd = some (refLen b0) ∧
      Instruction.decode 0x10 0 y = some (.Stop, 2) := by
  refine ⟨?_, rfl⟩
  interval_cases b0 <;>
    first
      | rfl
      | exact absurd (by decide) hres
      | exact absurd rfl hcb
      | exact absurd rfl hstop

/-- Claim C3 witness: the amended statement evaluated at the window
[0x41, 0x07, 0x09]. -/
theorem decode_total_with_reference_lengths_witness :
    (Instruction.decode 0x41 0x07 0x09).map Prod.snd = some (refLen 0x41) ∧
      Instruction.decode 0x10 0 0 = some (.Stop, 2) :=
  decode_total_with_reference_lengths 0x41 0x07 0x09 0 (by decide) (by decide)
    (by decide) (by decide)

/-- Claim C4: every window starting with a reserved opcode is rejected,
for all following bytes, and the malformed Stop [0x10, p, y] with p
nonzero is rejected. -/
theorem decode_rejects_reserved_and_malformed_stop (b0 b1 b2 p y : Nat)
    (hres : b0 ∈ reservedOpcodes) (hp : p ≠ 0) :
    Instruction.decode b0 b1 b2 = none ∧ Instruction.decode 0x10 p y = none := by
  constructor
  · fin_cases hres <;> rfl
  · rw [show Instruction.decode 0x10 p y = if p = 0 then some (.Stop, 2) else none from rfl,
        if_neg hp]

/-- Claim C4 witness: the reserved byte 0xD3 and the malformed Stop
[0x10, 0x01, 0x00] are both rejected. -/
theorem decode_rejects_reserved_and_malformed_stop_witness :
    Instruction.decode 0xD3 0x22 0x33 = none ∧ Instruction.decode 0x10 1 0 = none :=
  decode_rejects_reserved_and_malformed_stop 0xD3 0x22 0x33 1 0 (by decide) (by decide)

/-- Claim C9: executing any instruction produced by a successful decode
never reaches the write-to-immediate panic branch of write_operand, in
any CPU state. -/
theorem decoded_instructions_never_write_immediate (b0 b1 b2 : Nat)
    (hb0 : b0 < 256) (hb1 : b1 < 256) (i : Instruction) (l : Nat)
    (h : Instruction.decode b0 b1 b2 = some (i, l)) (s : Cpu) :
    ((execute i) s).1 ≠ Except.error EErr.immWrite :=
  noimm_execute i (decode_wf b0 b1 b2 hb0 hb1 i l h) s

/-- Claim C9 witness: the decode of 0x41 (LD B, C) executed on a concrete
state does not fail with the immediate-write panic. -/
theorem decoded_instructions_never_write_immediate_witness :
    ((execute (.Load (.Load (.Register .B) (.Register .C)))) baseCpu).1 ≠
      Except.error EErr.immWrite :=
  decoded_instructions_never_write_immediate 0x41 0 0 (by decide) (by decide)
    (.Load (.Load (.Register .B) (.Register .C))) 1 rfl baseCpu

/-- The exact success behavior of pop16 when both stack bytes are
readable: the 16-bit value at SP is returned little-endian and SP moves
up by two. -/
theorem pop16_spec (s : Cpu)
    (hr1 : s.mmu.readable s.sp = true)
    (hr2 : s.mmu.readable ((s.sp + 1) % 65536) = true) :
    pop16 s = (.ok (hi_lo (s.mmu.data ((s.sp + 1) % 65536) % 256) (s.mmu.data s.sp % 256)),
      { s with sp := (s.sp + 2) % 65536 }) := by
  simp only [pop16, mmuRead16, M_bind_app, getS_app, modifyS_app, mmuRead_app, pure_app,
    Mmu.read, hr1, hr2, if_true, ite_true]

/-- Claim C1: when IME is set and the pumped interrupt's enable bit is
set, and the two stack bytes below SP are writable, dispatch succeeds:
IME is cleared, SP drops by two, the previous PC is stored little-endian
at the new SP, and PC is loaded with the interrupt's fixed vector
(0x0040 VBlank, 0x0048 LCDStat, 0x0050 Timer, 0x0058 Serial,
0x0060 Joypad). -/
theorem interrupt_service_dispatch (s : Cpu) (int : Interrupt)
    (hime : s.interrupt_master_enable = true)
    (hen : int.is_enabled s.mmu.interrupt_enable = true)
    (hpc : s.pc < 65536) (hsp : s.sp < 65536)
    (hw1 : s.mmu.writable ((s.sp + 65534) % 65536) = true)
    (hw2 : s.mmu.writable ((s.sp + 65535) % 65536) = true) :
    (handleInterrupt s int).2 = true ∧
    (handleInterrupt s int).1.interrupt_master_enable = false ∧
    (handleInterrupt s int).1.sp = (s.sp + 65534) % 65536 ∧
    (handleInterrupt s int).1.mmu.data ((s.sp + 65534) % 65536) = s.pc % 256 ∧
    (handleInterrupt s int).1.mmu.data ((s.sp + 65535) % 65536) = s.pc / 256 ∧
    (handleInterrupt s int).1.pc = int.table_address ∧
    Interrupt.table_address .VBlank = 0x0040 ∧
    Interrupt.table_address .LCDStat = 0x0048 ∧
    Interrupt.table_address .Timer = 0x0050 ∧
    Interrupt.table_address .Serial = 0x0058 ∧
    Interrupt.table_address .Joypad = 0x0060 := by
  have haddr : ((s.sp + 65534) % 65536 + 1) % 65536 = (s.sp + 65535) % 65536 := by omega
  have hw2x : s.mmu.writable (((s.sp + 65534) % 65536 + 1) % 65536) = true := by
    rw [haddr]; exact hw2
  have hne : ¬((s.sp + 65534) % 65536 = (s.sp + 65535) % 65536) := by omega
  have hp := push16_spec s s.pc hw1 hw2x
  unfold handleInterrupt
  rw [if_pos ⟨hime, hen⟩, hp]
  dsimp only
  rw [haddr]
  by_cases hh : s.halted = true <;>
    simp only [hh, if_true, if_false, ite_true, ite_false, Bool.false_eq_true] <;>
    refine ⟨?_, ?_, ?_, ?_, ?_, ?_, ?_, ?_, ?_, ?_, ?_⟩ <;>
    first
      | (simp only [if_neg hne, if_pos rfl, ite_true, lo, hi]; omega)
      | rfl
      | trivial

/-- Claim C1 witness: dispatch of VBlank on a concrete state with IME set,
IE bit 0 set and a fully writable bus. -/
theorem interrupt_service_dispatch_witness :
    (handleInterrupt { baseCpu with interrupt_master_enable := true, pc := 0x1234 } .VBlank).2 = true ∧
    (handleInterrupt { baseCpu with interrupt_master_enable := true, pc := 0x1234 } .VBlank).1.interrupt_master_enable = false ∧
    (handleInterrupt { baseCpu with interrupt_master_enable := true, pc := 0x1234 } .VBlank).1.sp = (0xFFF0 + 65534) % 65536 ∧
    (handleInterrupt { baseCpu with interrupt_master_enable := true, pc := 0x1234 } .VBlank).1.mmu.data ((0xFFF0 + 65534) % 65536) = 0x1234 % 256 ∧
    (handleInterrupt { baseCpu with interrupt_master_enable := true, pc := 0x1234 } .VBlank).1.mmu.data ((0xFFF0 + 65535) % 65536) = 0x1234 / 256 ∧
    (handleInterrupt { baseCpu with interrupt_master_enable := true, pc := 0x1234 } .VBlank).1.pc = Interrupt.table_address .VBlank ∧
    Interrupt.table_address .VBlank = 0x0040 ∧
    Interrupt.table_address .LCDStat = 0x0048 ∧
    Interrupt.table_address .Timer = 0x0050 ∧
    Interrupt.table_address .Serial = 0x0058 ∧
    Interrupt.table_address .Joypad = 0x0060 :=
  interrupt_service_dispatch { baseCpu with interrupt_master_enable := true, pc := 0x1234 }
    .VBlank rfl (by decide) (by decide) (by decide) rfl rfl

/-- Claim C7, counterexample: pushing 0x000F and popping it back into AF
reproduces 0x000F exactly, but the claim's masked equality would require
AF = 0x000F AND 0xFFF0 = 0; the code applies no mask on the AF pop. -/
theorem pop_into_af_not_masked :
    ((push16 0x000F >>= fun _ => pop16) baseCpu).1 = .ok 0x000F ∧
    Cpu.read_r16 (Cpu.write_r16 ((push16 0x000F >>= fun _ => pop16) baseCpu).2 .AF 0x000F) .AF = 0x000F ∧
    ¬((0x000F : Nat) = 0x000F &&& 0xFFF0) :=
  ⟨rfl, by decide, by decide⟩

/-- Claim C7 (amended): push16 followed by pop16 returns the pushed 16-bit
value and restores SP, and writing the popped value into AF reproduces it
exactly — the code does not mask the low nibble of F on an AF pop. -/
theorem push_pop_roundtrip_exact (s : Cpu) (v : Nat) (hv : v < 65536) (hsp : s.sp < 65536)
    (hw1 : s.mmu.writable ((s.sp + 65534) % 65536) = true)
    (hw2 : s.mmu.writable ((s.sp + 65535) % 65536) = true)
    (hr1 : s.mmu.readable ((s.sp + 65534) % 65536) = true)
    (hr2 : s.mmu.readable ((s.sp + 65535) % 65536) = true) :
    ((push16 v >>= fun _ => pop16) s).1 = .ok v ∧
    ((push16 v >>= fun _ => pop16) s).2.sp = s.sp ∧
    Cpu.read_r16 (Cpu.write_r16 ((push16 v >>= fun _ => pop16) s).2 .AF v) .AF = v := by
  have haddr : ((s.sp + 65534) % 65536 + 1) % 65536 = (s.sp + 65535) % 65536 := by omega
  have hw2x : s.mmu.writable (((s.sp + 65534) % 65536 + 1) % 65536) = true := by
    rw [haddr]; exact hw2
  have hr2x : s.mmu.readable (((s.sp + 65534) % 65536 + 1) % 65536) = true := by
    rw [haddr]; exact hr2
  have hne : ¬((s.sp + 65534) % 65536 = ((s.sp + 65534) % 65536 + 1) % 65536) := by omega
  have hp := push16_spec s v hw1 hw2x
  rw [bind_apply_ok hp, pop16_spec]
  rotate_left
  · exact hr1
  · exact hr2x
  dsimp only
  have hAF : ∀ t : Cpu, Cpu.read_r16 (Cpu.write_r16 t .AF v) .AF = v := by
    intro t
    show hi_lo (hi v % 256) (lo v % 256) = v
    simp only [hi_lo, hi, lo]
    omega
  refine ⟨?_, by omega, hAF _⟩
  rw [if_pos rfl, if_neg hne, if_pos rfl]
  have hval : hi_lo (hi v % 256 % 256) (lo v % 256 % 256) = v := by
    simp only [hi_lo, hi, lo]
    omega
  rw [hval]

/-- Claim C7 witness: the amended round trip evaluated at v = 0xABCD on a
concrete state. -/
theorem push_pop_roundtrip_exact_witness :
    ((push16 0xABCD >>= fun _ => pop16) baseCpu).1 = .ok 0xABCD ∧
    ((push16 0xABCD >>= fun _ => pop16) baseCpu).2.sp = baseCpu.sp ∧
    Cpu.read_r16 (Cpu.write_r16 ((push16 0xABCD >>= fun _ => pop16) baseCpu).2 .AF 0xABCD) .AF = 0xABCD :=
  push_pop_roundtrip_exact baseCpu 0xABCD (by decide) (by decide) rfl rfl rfl rfl

/-- A halted CPU with IME set, VBlank enabled, and an unwritable bus. -/
def haltedRomCpu : Cpu :=
  { baseCpu with
    mmu := { flatMmu 0 with writable := fun _ => false },
    interrupt_master_enable := true,
    halted := true }

/-- Claim C10, counterexample: a halted CPU with IME set and the VBlank
bit enabled, but an unwritable stack: the PC push fails, the error
propagates, and the CPU stays halted — the pumped interrupt does not wake
it. -/
theorem halted_wake_skipped_on_push_failure :
    haltedRomCpu.halted = true ∧
    Interrupt.is_enabled .VBlank haltedRomCpu.mmu.interrupt_enable = true ∧
    (handleInterrupt haltedRomCpu .VBlank).1.halted = true ∧
    (handleInterrupt haltedRomCpu .VBlank).2 = false :=
  ⟨rfl, by decide, by decide, by decide⟩

/-- Claim C10 (amended): while halted, a pumped interrupt wakes the CPU
(halted becomes false, with success) whenever no dispatch is attempted
(IME clear or enable bit clear), and also when a dispatch is attempted
and the PC push succeeds; only a failed PC push skips the wake. -/
theorem halted_interrupt_always_wakes (s : Cpu) (int : Interrupt)
    (hh : s.halted = true)
    (hw : s.interrupt_master_enable = true → int.is_enabled s.mmu.interrupt_enable = true →
      s.mmu.writable ((s.sp + 65534) % 65536) = true ∧
      s.mmu.writable ((s.sp + 65535) % 65536) = true) :
    (handleInterrupt s int).1.halted = false ∧ (handleInterrupt s int).2 = true := by
  have haddr : ((s.sp + 65534) % 65536 + 1) % 65536 = (s.sp + 65535) % 65536 := by omega
  unfold handleInterrupt
  split
  · rename_i hcond
    obtain ⟨h1, h2⟩ := hcond
    obtain ⟨hw1, hw2⟩ := hw h1 h2
    have hw2x : s.mmu.writable (((s.sp + 65534) % 65536 + 1) % 65536) = true := by
      rw [haddr]; exact hw2
    rw [push16_spec s s.pc hw1 hw2x]
    dsimp only
    simp [hh]
  · simp [hh]

/-- Claim C10 witness: the amended statement evaluated on a halted CPU
with IME clear, where the wake still happens. -/
theorem halted_interrupt_always_wakes_witness :
    (handleInterrupt { baseCpu with halted := true } .Timer).1.halted = false ∧
    (handleInterrupt { baseCpu with halted := true } .Timer).2 = true :=
  halted_interrupt_always_wakes { baseCpu with halted := true } .Timer rfl
    (fun hime _ => absurd hime (by decide))

/-- A CPU whose bus reads 0xFF everywhere. -/
def popAfCpu : Cpu := { baseCpu with mmu := flatMmu 0xFF }

/-- Claim C2: executing Pop AF with the stack word 0xFFFF leaves
F = 0xFF, so the low nibble of F is 0x0F, not zero — write_r16 applies no
mask on the AF pop, violating the spec invariant. -/
theorem pop_af_unmasked_F_low_nibble :
    ((execute (.Load (.Pop .AF))) popAfCpu).2.registers .F = 0xFF ∧
    ¬(((execute (.Load (.Pop .AF))) popAfCpu).2.registers .F &&& 0x0F = 0) :=
  ⟨by decide, by decide⟩

/-- A CPU whose bus reads 0x76 (the Halt opcode) everywhere. -/
def haltOpCpu : Cpu := { baseCpu with mmu := flatMmu 0x76 }

/-- Claim C5, counterexample: with a 3-cycle budget (716 ns), executing
Halt charges 4 cycles, overshooting the deadline; the halt-coalescing
fast-forward then sets the counter to min(next event, 3) = 3, which is
below its value 4 before that step. -/
theorem halt_coalescing_rewinds_cycle :
    duration_to_cycle_count ⟨0, 716⟩ = 3 ∧
    (runCycle haltOpCpu).1.cycle = 4 ∧
    (runCycle haltOpCpu).1.halted = true ∧
    (haltFastForward (runCycle haltOpCpu).1 3).cycle = 3 ∧
    (3 : Nat) < 4 :=
  ⟨by decide, by decide, by decide, by decide, by decide⟩

/-- Claim C5 (amended): within run_for_duration, the cycle counter never
decreases across a run_cycle step; the halt-coalescing step sets it to
min(next LCD event cycle, the deadline), which can be below its previous
value when the last instruction overshot the deadline. -/
theorem cycle_monotone_outside_halt_coalescing (s : Cpu) (stopAt : Nat) :
    s.cycle ≤ (runCycle s).1.cycle ∧
    (haltFastForward s stopAt).cycle = min s.mmu.lcdNextEventCycle stopAt :=
  ⟨(runCycle_frame s).1, rfl⟩

/-- A CPU with a full 50-entry trace ring, about to fetch Nop. -/
def fullTraceCpu : Cpu :=
  { baseCpu with last_instructions := List.replicate 50 (0, Instruction.Nop) }

/-- Claim C6, counterexample: a run_cycle on a ring holding exactly 50
entries appends without evicting (the code evicts only when the length
exceeds 50), leaving 51 entries — more than the claimed capacity 50. -/
theorem trace_ring_exceeds_capacity_50 :
    fullTraceCpu.last_instructions.length = 50 ∧
    (runCycle fullTraceCpu).1.last_instructions.length = 51 :=
  ⟨by decide, by decide⟩

/-- Claim C6 (amended): the trace ring holds at most 51 entries after any
run_cycle from a state within that bound; once the ring holds more than
50 entries a run_cycle does not grow it, and when a fetched entry is
appended to such a ring the oldest entry is evicted first: the new ring
is the old ring without its front entry, with the fetched pair appended
at the back. -/
theorem trace_ring_bounded_by_51 (s : Cpu) (h : s.last_instructions.length ≤ 51) :
    (runCycle s).1.last_instructions.length ≤ 51 ∧
    (50 < s.last_instructions.length →
      (runCycle s).1.last_instructions.length ≤ s.last_instructions.length) ∧
    (∀ i l, 50 < s.last_instructions.length → s.halted = false →
      s.breakpoints.contains s.pc = false → fetchInstruction s = some (i, l) →
      (runCycle s).1.last_instructions =
        s.last_instructions.tail ++ [(s.mmu.mapRom s.pc, i)]) := by
  have hf := (runCycle_frame s).2
  refine ⟨?_, ?_, ?_⟩
  · split at hf <;> omega
  · intro hgt
    split at hf <;> omega
  · intro i l hgt hh hb hfe
    rw [runCycle_trace_eq s i l hh hb hfe, if_pos hgt]

/-- A CPU with an over-full 51-entry trace ring, about to fetch Nop. -/
def overfullTraceCpu : Cpu :=
  { baseCpu with last_instructions := List.replicate 51 (0, Instruction.Nop) }

/-- Claim C6 witness: the amended statement evaluated at the 51-entry
state, where the eviction clause is exercised. -/
theorem trace_ring_bounded_by_51_witness :
    (runCycle overfullTraceCpu).1.last_instructions.length ≤ 51 ∧
    (50 < overfullTraceCpu.last_instructions.length →
      (runCycle overfullTraceCpu).1.last_instructions.length ≤
        overfullTraceCpu.last_instructions.length) ∧
    (∀ i l, 50 < overfullTraceCpu.last_instructions.length →
      overfullTraceCpu.halted = false →
      overfullTraceCpu.breakpoints.contains overfullTraceCpu.pc = false →
      fetchInstruction overfullTraceCpu = some (i, l) →
      (runCycle overfullTraceCpu).1.last_instructions =
        overfullTraceCpu.last_instructions.tail ++
          [(overfullTraceCpu.mmu.mapRom overfullTraceCpu.pc, i)]) :=
  trace_ring_bounded_by_51 overfullTraceCpu (by decide)

/-- Claim C8, counterexample: the clock constant is 4_190_000, so one
second yields a budget of 4,190,000 cycles, not the exact
1 * 4,194,304 + 4,194,304 * 0 / 10^9 the claim requires. -/
theorem clock_rate_is_4190000_not_exact :
    CLOCK_RATE = 4190000 ∧
    duration_to_cycle_count ⟨1, 0⟩ = 4190000 ∧
    ¬(duration_to_cycle_count ⟨1, 0⟩ = 1 * 4194304 + 4194304 * 0 / 1000000000) :=
  ⟨rfl, by decide, by decide⟩

/-- Claim C8 (amended): the cycle budget is seconds * 4_190_000 plus
4_190_000 * nanoseconds / 10^9 in exact integer arithmetic (CLOCK_RATE is
4_190_000, not the exact 4,194,304), and whenever the runner's loop exits
it has either reached the starting cycle plus that budget or entered
debug-halt. -/
theorem runner_budget_and_deadline (d : Duration) (fuel : Nat) (s t : Cpu)
    (h : run_for_duration s d fuel = some t) :
    duration_to_cycle_count d = d.secs * 4190000 + 4190000 * d.nanos / 1000000000 ∧
    (s.cycle + duration_to_cycle_count d ≤ t.cycle ∨ t.debug_halted = true) := by
  refine ⟨rfl, ?_⟩
  have key : ∀ (n : Nat) (s0 : Cpu) (stop : Nat), runLoop n s0 stop = some t →
      stop ≤ t.cycle ∨ t.debug_halted = true := by
    intro n
    induction n with
    | zero =>
      intro s0 stop h0
      unfold runLoop at h0
      split at h0
      · exact Option.noConfusion h0
      · rename_i hc
        injection h0 with h0
        subst h0
        by_cases hd : s0.debug_halted = true
        · exact Or.inr hd
        · refine Or.inl ?_
          by_contra hlt
          exact hc ⟨by omega, hd⟩
    | succ n ih =>
      intro s0 stop h0
      unfold runLoop at h0
      split at h0
      · exact ih _ _ h0
      · rename_i hc
        injection h0 with h0
        subst h0
        by_cases hd : s0.debug_halted = true
        · exact Or.inr hd
        · refine Or.inl ?_
          by_contra hlt
          exact hc ⟨by omega, hd⟩
  exact key fuel s _ h

/-- A debug-halted CPU, on which the runner exits immediately. -/
def dhCpu : Cpu := { baseCpu with debug_halted := true }

/-- Claim C8 witness: the amended statement evaluated on a debug-halted
CPU with a 1.5-second duration and zero fuel. -/
theorem runner_budget_and_deadline_witness :
    duration_to_cycle_count ⟨1, 500⟩ = 1 * 4190000 + 4190000 * 500 / 1000000000 ∧
    (dhCpu.cycle + duration_to_cycle_count ⟨1, 500⟩ ≤ dhCpu.cycle ∨
      dhCpu.debug_halted = true) :=
  runner_budget_and_deadline ⟨1, 500⟩ 0 dhCpu dhCpu rfl

end J2gbc
